import Mathlib

/-!
Verification of the bds-data-providers market-data shim.

The Lean definitions below are a shallow embedding of the Python sources
under src/bds_data_providers/: alphavantage_market.py (the record-contract
Alpha Vantage adapter), alphavantage.py (the Polars tabular adapter),
provider.py (the abstract tabular contract with its concrete
fetch_price_history), and market_factory.py (registry, singleton cache and
safe fallback).  External effects (HTTP responses, today's date,
constructor outcomes) are supplied by explicit oracle records; Python
exceptions are modelled with Except; Python floats are modelled as exact
integer fractions; JSON responses are modelled by an inductive value type.
-/

namespace S2P

/-! ### Exact numbers standing in for Python floats

A value is an integer pair num/den with positive denominator, deliberately
left unreduced so that every arithmetic operation is kernel-computable.
The Python code only performs field arithmetic, comparisons, truncation and
round-half-even on its floats, and all the concrete values involved are
exact decimals, so this models the arithmetic exactly. -/

structure Py where
  num : Int
  den : Int
deriving DecidableEq, Repr

def pyI (i : Int) : Py := ⟨i, 1⟩

def Py.add (a b : Py) : Py := ⟨a.num * b.den + b.num * a.den, a.den * b.den⟩

def Py.sub (a b : Py) : Py := ⟨a.num * b.den - b.num * a.den, a.den * b.den⟩

def Py.mul (a b : Py) : Py := ⟨a.num * b.num, a.den * b.den⟩

/-- Division; callers guard the zero denominator (Python raises there,
modelled separately by pyDivE). Sign is kept on the numerator so the
denominator stays positive. -/
def Py.div (a b : Py) : Py :=
  if b.num < 0 then ⟨-(a.num * b.den), a.den * (-b.num)⟩
  else ⟨a.num * b.den, a.den * b.num⟩

def Py.pabs (a : Py) : Py := ⟨(a.num.natAbs : Int), a.den⟩

def Py.isZero (a : Py) : Bool := a.num == 0

def Py.ble (a b : Py) : Bool := decide (a.num * b.den ≤ b.num * a.den)

def Py.blt (a b : Py) : Bool := decide (a.num * b.den < b.num * a.den)

/-- Truncation toward zero, Python's int(float). -/
def Py.trunc (a : Py) : Int := a.num.tdiv a.den

/-- Round to the nearest integer, ties to even: Python's round() and the
rounding used by its fixed-point string formatting. -/
def Py.rnd (a : Py) : Int :=
  let q := a.num.fdiv a.den
  let r := a.num - q * a.den
  if 2 * r < a.den then q
  else if a.den < 2 * r then q + 1
  else if q % 2 = 0 then q else q + 1

/-- Python round(x, k): round half to even at k decimal places. -/
def Py.roundTo (a : Py) (k : Nat) : Py :=
  ⟨Py.rnd ⟨a.num * (10 : Int) ^ k, a.den⟩, (10 : Int) ^ k⟩

/-! ### Python string conversions -/

def digitsVal (l : List Char) : Nat :=
  l.foldl (fun a c => a * 10 + (c.toNat - 48)) 0

def spanDigits (l : List Char) : List Char × List Char := l.span (·.isDigit)

/-- Surrounding-whitespace strip, as Python's conversions apply to their
string argument. -/
def trimWs (s : String) : List Char :=
  ((s.toList.dropWhile (·.isWhitespace)).reverse.dropWhile (·.isWhitespace)).reverse

/-- Python float(string) on the decimal forms the program meets: optional
surrounding whitespace, optional sign, digits with optional fraction and
optional exponent.  The special spellings inf and nan have no counterpart
in the exact-fraction model and are out of the modelled domain. -/
def parseFloat (s : String) : Option Py :=
  let cs := trimWs s
  let (sgn, cs) := match cs with
    | '+' :: t => ((1 : Int), t)
    | '-' :: t => ((-1 : Int), t)
    | t => ((1 : Int), t)
  let (ip, cs) := spanDigits cs
  let (fp, cs) := match cs with
    | '.' :: t => spanDigits t
    | t => ([], t)
  if ip.isEmpty && fp.isEmpty then none
  else
    let mn : Int := sgn * (digitsVal (ip ++ fp) : Int)
    let md : Nat := fp.length
    match cs with
    | [] => some ⟨mn, (10 : Int) ^ md⟩
    | 'e' :: t =>
      let (es, t) := match t with
        | '+' :: t2 => (true, t2)
        | '-' :: t2 => (false, t2)
        | t2 => (true, t2)
      let (ed, t) := spanDigits t
      if ed.isEmpty || !t.isEmpty then none
      else if es then some ⟨mn * (10 : Int) ^ digitsVal ed, (10 : Int) ^ md⟩
      else some ⟨mn, (10 : Int) ^ (md + digitsVal ed)⟩
    | 'E' :: t =>
      let (es, t) := match t with
        | '+' :: t2 => (true, t2)
        | '-' :: t2 => (false, t2)
        | t2 => (true, t2)
      let (ed, t) := spanDigits t
      if ed.isEmpty || !t.isEmpty then none
      else if es then some ⟨mn * (10 : Int) ^ digitsVal ed, (10 : Int) ^ md⟩
      else some ⟨mn, (10 : Int) ^ (md + digitsVal ed)⟩
    | _ => none

/-- Python int(string): optional whitespace, optional sign, digits only. -/
def parseInt (s : String) : Option Int :=
  let cs := trimWs s
  let (sgn, cs) := match cs with
    | '+' :: t => ((1 : Int), t)
    | '-' :: t => ((-1 : Int), t)
    | t => ((1 : Int), t)
  let (ip, rest) := spanDigits cs
  if ip.isEmpty || !rest.isEmpty then none else some (sgn * (digitsVal ip : Int))

/-- Digits of a natural number, grouped in threes by commas from the right,
as Python's format specifier with a comma renders the integer part. -/
def commaGroup (s : List Char) : List Char :=
  let rec go : List Char → Nat → List Char
    | [], _ => []
    | c :: t, k => if k % 3 = 0 && k ≠ 0 then ',' :: c :: go t (k + 1) else c :: go t (k + 1)
  (go s.reverse 0).reverse

/-- Python format f-string with spec comma .0f applied to an exact value. -/
def fmtComma0 (a : Py) : String :=
  let r := a.rnd
  let body := String.mk (commaGroup (toString r.natAbs).toList)
  (if a.num < 0 then "-" else "") ++ body

/-- Python fixed-point formatting .kf applied to an exact value. -/
def fmtFixed (a : Py) (k : Nat) : String :=
  let r := Py.rnd ⟨a.num * (10 : Int) ^ k, a.den⟩
  let ds := toString r.natAbs
  let ds := if ds.length < k + 1 then String.mk (List.replicate (k + 1 - ds.length) '0') ++ ds else ds
  let ip := ds.take (ds.length - k)
  let fp := ds.drop (ds.length - k)
  (if a.num < 0 then "-" else "") ++ (if k = 0 then ip else ip ++ "." ++ fp)

/-! ### Python exceptions -/

inductive PyErr
  | valueError (msg : String)
  | runtimeError (msg : String)
  | typeError (msg : String)
  | attributeError (msg : String)
  | keyError (key : String)
  | zeroDivisionError
  | importError (msg : String)
  | connectionError (msg : String)
deriving DecidableEq, Repr

/-- Python str(exception), the text the adapters put into error sentinels. -/
def PyErr.text : PyErr → String
  | .valueError m => m
  | .runtimeError m => m
  | .typeError m => m
  | .attributeError m => m
  | .keyError k => "'" ++ k ++ "'"
  | .zeroDivisionError => "float division by zero"
  | .importError m => m
  | .connectionError m => m

/-- Python float division, raising ZeroDivisionError on a zero divisor. -/
def pyDivE (a b : Py) : Except PyErr Py :=
  if b.isZero then .error .zeroDivisionError else .ok (a.div b)

/-! ### JSON values, as Python's json module hands them to the adapters -/

inductive JVal
  | s (v : String)
  | n (v : Py)
  | arr (v : List JVal)
  | obj (v : List (String × JVal))
  | null

/-- A decoded JSON object: what a successful Alpha Vantage response body is. -/
abbrev JObj := List (String × JVal)

def jGet (d : JObj) (k : String) : Option JVal :=
  (List.find? (fun p => p.1 == k) d).map (·.2)

def jGetD (d : JObj) (k : String) (dflt : JVal) : JVal := (jGet d k).getD dflt

def jHas (d : JObj) (k : String) : Bool := (jGet d k).isSome

/-- Python truthiness of a decoded JSON value. -/
def pyTruthy : JVal → Bool
  | .s v => !(v == "")
  | .n v => !v.isZero
  | .arr v => !v.isEmpty
  | .obj v => !v.isEmpty
  | .null => false

/-- Python float(x) on a decoded JSON value. -/
def pyFloat : JVal → Except PyErr Py
  | .s v =>
    match parseFloat v with
    | some q => .ok q
    | none => .error (.valueError ("could not convert string to float: '" ++ v ++ "'"))
  | .n v => .ok v
  | .arr _ => .error (.typeError "float() argument must be a string or a real number, not 'list'")
  | .obj _ => .error (.typeError "float() argument must be a string or a real number, not 'dict'")
  | .null => .error (.typeError "float() argument must be a string or a real number, not 'NoneType'")

/-- Python int(x) on a decoded JSON value (plain integer literals only for
strings; floats truncate toward zero). -/
def pyInt : JVal → Except PyErr Int
  | .s v =>
    match parseInt v with
    | some i => .ok i
    | none => .error (.valueError ("invalid literal for int() with base 10: '" ++ v ++ "'"))
  | .n v => .ok v.trunc
  | .arr _ => .error (.typeError "int() argument must be a string or a number, not 'list'")
  | .obj _ => .error (.typeError "int() argument must be a string or a number, not 'dict'")
  | .null => .error (.typeError "int() argument must be a string or a number, not 'NoneType'")

/-! ### Byte-order string comparison and containment -/

def charKey (s : String) : List Nat := s.toList.map Char.toNat

/-- Lexicographic string order on code points, the order Polars sorts Utf8
columns by (code-point order and UTF-8 byte order agree). -/
def strLe (a b : String) : Bool := decide (charKey a ≤ charKey b)

def clStarts : List Char → List Char → Bool
  | [], _ => true
  | _ :: _, [] => false
  | a :: as, b :: bs => a == b && clStarts as bs

def clHasSub (needle : List Char) : List Char → Bool
  | [] => needle.isEmpty
  | c :: t => clStarts needle (c :: t) || clHasSub needle t

/-- Python substring containment, needle in haystack. -/
def strContains (haystack needle : String) : Bool :=
  clHasSub needle.toList haystack.toList

/-- Python str.lower restricted to ASCII, all the adapters compare. -/
def strLower (s : String) : String :=
  String.mk (s.toList.map fun c =>
    if 'A' ≤ c && c ≤ 'Z' then Char.ofNat (c.toNat + 32) else c)

/-! ### Calendar dates

Python datetime.date values: a year-month-day triple ordered
lexicographically, with the proleptic Gregorian day number used wherever
the code subtracts a timedelta from a date. -/

structure PDate where
  year : Int
  month : Int
  day : Int
deriving DecidableEq, Repr

def PDate.ble (a b : PDate) : Bool :=
  if a.year < b.year then true
  else if b.year < a.year then false
  else if a.month < b.month then true
  else if b.month < a.month then false
  else decide (a.day ≤ b.day)

def PDate.blt (a b : PDate) : Bool := !(PDate.ble b a)

def isLeapYear (y : Int) : Bool := y % 4 = 0 && (y % 100 ≠ 0 || y % 400 = 0)

def daysInMonth (y m : Int) : Int :=
  if m = 2 then (if isLeapYear y then 29 else 28)
  else if m = 4 || m = 6 || m = 9 || m = 11 then 30
  else 31

/-- Python date.fromisoformat on the YYYY-MM-DD form Alpha Vantage emits,
validating the calendar ranges and raising ValueError otherwise. -/
def dateFromIso (s : String) : Except PyErr PDate :=
  match s.toList with
  | [y1, y2, y3, y4, '-', m1, m2, '-', d1, d2] =>
    if [y1, y2, y3, y4, m1, m2, d1, d2].all (·.isDigit) then
      let y : Int := (digitsVal [y1, y2, y3, y4] : Int)
      let m : Int := (digitsVal [m1, m2] : Int)
      let d : Int := (digitsVal [d1, d2] : Int)
      if 1 ≤ m && m ≤ 12 && 1 ≤ d && d ≤ daysInMonth y m then
        .ok ⟨y, m, d⟩
      else .error (.valueError ("Invalid isoformat string: '" ++ s ++ "'"))
    else .error (.valueError ("Invalid isoformat string: '" ++ s ++ "'"))
  | _ => .error (.valueError ("Invalid isoformat string: '" ++ s ++ "'"))

/-- Proleptic Gregorian day number (days-from-civil); date minus timedelta
is this number minus the day count. -/
def PDate.toDays (x : PDate) : Int :=
  let y := if x.month ≤ 2 then x.year - 1 else x.year
  let era := (if 0 ≤ y then y else y - 399).fdiv 400
  let yoe := y - era * 400
  let mp := (x.month + 9) % 12
  let doy := (153 * mp + 2).fdiv 5 + x.day - 1
  let doe := yoe * 365 + yoe.fdiv 4 - yoe.fdiv 100 + doy
  era * 146097 + doe - 719468

/-! ### Stable insertion sort

The embedding of DataFrame sort_values / sort: a sort that is executable in
the kernel, proved to permute its input and to output a list ordered by the
given boolean comparator. -/

def insLe {α : Type} (le : α → α → Bool) (x : α) : List α → List α
  | [] => [x]
  | h :: t => if le h x then h :: insLe le x t else x :: h :: t

def sortLe {α : Type} (le : α → α → Bool) : List α → List α
  | [] => []
  | h :: t => insLe le h (sortLe le t)

/-! ## src/bds_data_providers/alphavantage_market.py

The record-contract adapter AlphaVantageMarketProvider.  Its dict results
are embedded as association lists of Python values, so that the key set of
every returned dict is a provable fact.  The transport layer (requests
session, HTTP, json decoding) is an oracle giving, per endpoint and ticker,
either a raised exception or a decoded JSON object; the in-band error
checks of _api_call are embedded on top of it.  The tenacity retry re-runs
the same deterministic call and re-raises the final exception, so over a
deterministic oracle it is the identity on the outcome. -/

/-- A value stored in one of the adapter's result dicts. -/
inductive PyVal
  | s (v : String)
  | f (v : Py)
  | i (v : Int)
  | j (v : JVal)
  | noneV

/-- A result dict: keys in literal order, as the source writes them. -/
abbrev PyDict := List (String × PyVal)

def keysOf (d : PyDict) : List String := d.map (·.1)

def dGet (d : PyDict) (k : String) : Option PyVal :=
  (List.find? (fun p => p.1 == k) d).map (·.2)

/-- A scalar JSON value carried into a result dict unchanged. -/
def ofJ : JVal → PyVal
  | .s v => .s v
  | .n v => .f v
  | .null => .noneV
  | v => .j v

def optPy : Option Py → PyVal
  | some v => .f v
  | none => .noneV

def optStr : Option String → PyVal
  | some v => .s v
  | none => .noneV

def optInt : Option Int → PyVal
  | some v => .i v
  | none => .noneV

/-- Python str() of a decoded JSON value, used only inside interpolated
error messages whose exact text no property depends on. -/
def pyStr : JVal → String
  | .s v => v
  | .n v => fmtFixed v 1
  | .arr _ => "<list>"
  | .obj _ => "<dict>"
  | .null => "None"

def jEqStr (v : JVal) (t : String) : Bool :=
  match v with
  | .s u => u == t
  | _ => false

/-- Python x[key] on a decoded JSON value; a KeyError on a dict without the
key, a TypeError elsewhere. -/
def jSub (v : JVal) (k : String) : Except PyErr JVal :=
  match v with
  | .obj d =>
    match jGet d k with
    | some x => .ok x
    | none => .error (.keyError k)
  | _ => .error (.typeError "value is not subscriptable by a string key")

/-- Python x.get(...) receiver check: a dict gives its entries, anything
else has no get attribute. -/
def asObjE : JVal → Except PyErr JObj
  | .obj d => .ok d
  | _ => .error (.attributeError "object has no attribute get")

/-- Python x[i] indexing used on the annual-report lists.  Indexing a
non-list is folded into one TypeError here; in Python a string would index
to a character and fail slightly later inside the next attribute access,
with the same caught-exception outcome. -/
def jIdx (v : JVal) (i : Nat) : Except PyErr JVal :=
  match v with
  | .arr l =>
    match l[i]? with
    | some x => .ok x
    | none => .error (.valueError "list index out of range")
  | _ => .error (.typeError "value is not index-subscriptable")

/-- Python len(x) on a decoded JSON value. -/
def jLen : JVal → Except PyErr Nat
  | .arr l => .ok l.length
  | .obj d => .ok d.length
  | .s v => .ok v.length
  | _ => .error (.typeError "object has no len()")

def jIsNull : JVal → Bool
  | .null => true
  | _ => false

/-- Python x or y for the idiom value or empty string. -/
def pyOrStr (v : JVal) : JVal := if pyTruthy v then v else .s ""

/-- Python value[:500] as applied to the description field. -/
def slice500 : JVal → Except PyErr String
  | .s v => .ok (v.take 500)
  | _ => .error (.typeError "value is not sliceable")

/-- Source _safe_float: extract a float from an AV response dict, mapping
an absent key, None, the strings None, - and the empty string, and any
conversion failure to the given default. -/
def avmSafeFloat (data : JObj) (key : String) (dflt : Py) : Py :=
  match jGet data key with
  | none => dflt
  | some v =>
    if jEqStr v "None" || jEqStr v "-" || jEqStr v "" || jIsNull v then dflt
    else
      match pyFloat v with
      | .ok q => q
      | .error _ => dflt

/-- Source _safe_float_or_none: as _safe_float but with None for the
unavailable cases, and additionally treating the exact string 0 as
unavailable. -/
def avmSafeFloatOrNone (data : JObj) (key : String) : Option Py :=
  match jGet data key with
  | none => none
  | some v =>
    if jEqStr v "None" || jEqStr v "-" || jEqStr v "" || jEqStr v "0" || jIsNull v then none
    else
      match pyFloat v with
      | .ok q => some q
      | .error _ => none

/-- Source _safe_int. -/
def avmSafeInt (data : JObj) (key : String) (dflt : Int) : Int :=
  match jGet data key with
  | none => dflt
  | some v =>
    if jEqStr v "None" || jEqStr v "-" || jEqStr v "" || jIsNull v then dflt
    else
      match pyInt v with
      | .ok q => q
      | .error _ => dflt

/-- Source _safe_int_or_none. -/
def avmSafeIntOrNone (data : JObj) (key : String) : Option Int :=
  match jGet data key with
  | none => none
  | some v =>
    if jEqStr v "None" || jEqStr v "-" || jEqStr v "" || jIsNull v then none
    else
      match pyInt v with
      | .ok q => some q
      | .error _ => none

/-- Source _pct: render an AV decimal (0.25 for 25 percent) as a
one-decimal percentage string, None when the field is unavailable. -/
def avmPct (data : JObj) (key : String) : Option String :=
  match avmSafeFloatOrNone data key with
  | none => none
  | some v => some (fmtFixed (v.mul (pyI 100)) 1 ++ "%")

/-- Source _format_large_number: abbreviate a raw currency amount with
fixed magnitude thresholds; None in and zero in give None out. -/
def formatLargeNumber (n : Option Py) : Option String :=
  match n with
  | none => none
  | some v =>
    if v.isZero then none
    else if (pyI 1000000000000).ble v.pabs then
      some ("$" ++ fmtFixed (v.div (pyI 1000000000000)) 2 ++ "T")
    else if (pyI 1000000000).ble v.pabs then
      some ("$" ++ fmtFixed (v.div (pyI 1000000000)) 2 ++ "B")
    else if (pyI 1000000).ble v.pabs then
      some ("$" ++ fmtFixed (v.div (pyI 1000000)) 1 ++ "M")
    else some ("$" ++ fmtComma0 v)

/-- Source _period_to_days: coarse period token to approximate day count,
180 for an unknown token. -/
def periodToDays (period : String) : Int :=
  if period == "1mo" then 30
  else if period == "3mo" then 90
  else if period == "6mo" then 180
  else if period == "1y" then 365
  else if period == "2y" then 730
  else if period == "5y" then 1825
  else if period == "10y" then 3650
  else if period == "ytd" then 180
  else if period == "max" then 3650
  else 180

/-- The in-band error conventions of _api_call, applied to the transport
outcome: an explicit error-message field raises ValueError, the two
rate-limit notice conventions raise RuntimeError, and a non-string
Information value breaks the lowercase call. -/
def apiCheck (raw : Except PyErr JObj) : Except PyErr JObj := do
  let data ← raw
  if jHas data "Error Message" then
    throw (.valueError ("Alpha Vantage error: " ++ pyStr (jGetD data "Error Message" .null)))
  else if jHas data "Note" then
    throw (.runtimeError ("Rate limited: " ++ pyStr (jGetD data "Note" .null)))
  else if jHas data "Information" then
    match jGetD data "Information" (.s "") with
    | .s v =>
      if strContains (strLower v) "rate" then
        throw (.runtimeError ("Rate limited: " ++ v))
      else pure data
    | _ => throw (.attributeError "object has no attribute lower")
  else pure data

/-- The transport layer under AlphaVantageMarketProvider: per endpoint and
ticker, either a raised exception or the decoded JSON body, plus the
ordinal of date.today(). -/
structure AVMOracle where
  overview : String → Except PyErr JObj
  earnings : String → Except PyErr JObj
  incomeStmt : String → Except PyErr JObj
  balanceSheet : String → Except PyErr JObj
  series : String → Except PyErr JObj
  todayOrd : Int

/-- Source _get_overview: fetch the OVERVIEW endpoint, swallowing every
exception into an empty dict.  The per-instance memoization returns the
same response for a repeated ticker, which over a deterministic oracle is
what re-evaluating does. -/
def avmGetOverview (o : AVMOracle) (t : String) : JObj :=
  match apiCheck (o.overview t) with
  | .ok d => d
  | .error _ => []

/-- The try/except wrapper shared by the dict-shaped operations: any
exception from the body becomes the ticker-and-error sentinel dict. -/
def catchDict (t : String) (body : Except PyErr PyDict) : Except PyErr PyDict :=
  match body with
  | .ok d => .ok d
  | .error e => .ok [("ticker", .s t), ("error", .s e.text)]

/-- The try/except wrapper of the table-shaped earnings operations: any
exception from the body becomes None. -/
def catchNone {α : Type} (body : Except PyErr (Option α)) : Except PyErr (Option α) :=
  match body with
  | .ok x => .ok x
  | .error _ => .ok none

/-- Source get_ticker_object: a dict proxy, no network call, no handler. -/
def getTickerObject (_o : AVMOracle) (t : String) : Except PyErr PyDict :=
  .ok [("ticker", .s t), ("provider", .s "alphavantage")]

/-- Source get_company_overview, the body inside its try. -/
def getCompanyOverviewBody (o : AVMOracle) (t : String) : Except PyErr PyDict := do
  let ov := avmGetOverview o t
  let mktcap := avmSafeFloat ov "MarketCapitalization" (pyI 0)
  let desc ← slice500 (pyOrStr (jGetD ov "Description" (.s "")))
  pure [
    ("ticker", .s t),
    ("name", ofJ (jGetD ov "Name" (.s t))),
    ("sector", ofJ (jGetD ov "Sector" (.s "Unknown"))),
    ("industry", ofJ (jGetD ov "Industry" (.s "Unknown"))),
    ("market_cap", .f mktcap),
    ("market_cap_formatted", optStr (formatLargeNumber (some mktcap))),
    ("currency", ofJ (jGetD ov "Currency" (.s "USD"))),
    ("exchange", ofJ (jGetD ov "Exchange" (.s "Unknown"))),
    ("description", .s desc),
    ("website", .s ""),
    ("employees", .i (avmSafeInt ov "FullTimeEmployees" 0)),
    ("country", ofJ (jGetD ov "Country" (.s "Unknown")))]

/-- Source get_company_overview: body wrapped in the sentinel catch. -/
def getCompanyOverview (o : AVMOracle) (t : String) : Except PyErr PyDict :=
  catchDict t (getCompanyOverviewBody o t)

/-- One row of the history frame get_history builds. -/
structure HistRow where
  hdate : PDate
  hopen : Py
  hhigh : Py
  hlow : Py
  hclose : Py
  hvol : Int
deriving DecidableEq, Repr

def histLe (a b : HistRow) : Bool := PDate.ble a.hdate b.hdate

/-- The row loop of get_history: parse each date key, drop rows before the
cutoff, convert the five bar fields, propagating any parse failure. -/
def histRows (cutoff : Int) : List (String × JVal) → Except PyErr (List HistRow)
  | [] => .ok []
  | (ds, bar) :: rest => do
    let d ← dateFromIso ds
    if d.toDays < cutoff then histRows cutoff rest
    else do
      let op ← pyFloat (← jSub bar "1. open")
      let hi ← pyFloat (← jSub bar "2. high")
      let lo ← pyFloat (← jSub bar "3. low")
      let cl ← pyFloat (← jSub bar "5. adjusted close")
      let vo ← pyFloat (← jSub bar "6. volume")
      let tail ← histRows cutoff rest
      pure (⟨d, op, hi, lo, cl, vo.trunc⟩ :: tail)

/-- Source get_history, the body inside its try: TIME_SERIES_DAILY_ADJUSTED
rows after the period cutoff, sorted by date; an empty frame when the
series key is absent or no row survives. -/
def getHistoryBody (o : AVMOracle) (t period : String) : Except PyErr (List HistRow) := do
  let data ← apiCheck (o.series t)
  if !(jHas data "Time Series (Daily)") then pure []
  else do
    let ts ← asObjE (jGetD data "Time Series (Daily)" .null)
    let cutoff := o.todayOrd - periodToDays period
    let rows ← histRows cutoff ts
    if rows.isEmpty then pure []
    else pure (sortLe histLe rows)

/-- Source get_history: body wrapped in the catch that turns any exception
into an empty frame. -/
def getHistory (o : AVMOracle) (t period : String) : Except PyErr (List HistRow) :=
  match getHistoryBody o t period with
  | .ok l => .ok l
  | .error _ => .ok []

/-- Source get_price_data, the body inside its try: summary statistics of
the history frame, the no-data sentinel when the frame is empty. -/
def getPriceDataBody (o : AVMOracle) (t period : String) : Except PyErr PyDict := do
  let hist ← getHistory o t period
  match hist with
  | [] => pure [("ticker", .s t), ("error", .s "No price data available")]
  | h0 :: rest => do
    let lastC := rest.foldl (fun _ r => r.hclose) h0.hclose
    let first := h0.hclose
    let hi := rest.foldl (fun m r => if m.ble r.hclose then r.hclose else m) h0.hclose
    let lo := rest.foldl (fun m r => if r.hclose.ble m then r.hclose else m) h0.hclose
    let volSum := rest.foldl (fun sm r => sm + r.hvol) h0.hvol
    let n : Int := (1 + rest.length : Nat)
    let avgVol := ((⟨volSum, 1⟩ : Py).div ⟨n, 1⟩).trunc
    let prp ← pyDivE lastC first
    let pfh ← pyDivE lastC hi
    let pfl ← pyDivE lastC lo
    pure [
      ("ticker", .s t),
      ("current_price", .f (lastC.roundTo 2)),
      ("period_return_pct", .f (((prp.sub (pyI 1)).mul (pyI 100)).roundTo 2)),
      ("high_52w", .f (hi.roundTo 2)),
      ("low_52w", .f (lo.roundTo 2)),
      ("pct_from_high", .f (((pfh.sub (pyI 1)).mul (pyI 100)).roundTo 2)),
      ("pct_from_low", .f (((pfl.sub (pyI 1)).mul (pyI 100)).roundTo 2)),
      ("avg_daily_volume", .i avgVol),
      ("avg_volume_formatted", optStr (formatLargeNumber (some (pyI avgVol)))),
      ("period", .s period),
      ("data_points", .i n)]

/-- Source get_price_data: body wrapped in the sentinel catch. -/
def getPriceData (o : AVMOracle) (t period : String) : Except PyErr PyDict :=
  catchDict t (getPriceDataBody o t period)

/-- Source _get_income_statement and _get_balance_sheet: the annualReports
value of the endpoint, any failure swallowed into an empty list. -/
def avmReports (raw : Except PyErr JObj) : JVal :=
  match apiCheck raw with
  | .error _ => .arr []
  | .ok d => jGetD d "annualReports" (.arr [])

/-- The latest-annual-report access of get_fundamentals: the first report
when the reports value is truthy, an empty dict otherwise, with the
indexing and attribute errors of malformed values propagating. -/
def avmLatestObj (reports : JVal) : Except PyErr JObj :=
  if pyTruthy reports then do asObjE (← jIdx reports 0) else pure []

/-- The current-ratio computation of get_fundamentals: current assets over
current liabilities rounded to two places, None unless the liabilities
figure is positive, so the division is guarded. -/
def avmCurrentRat (lb : JObj) : Option Py :=
  let currentAssets := avmSafeFloat lb "totalCurrentAssets" (pyI 0)
  let currentLiab := avmSafeFloat lb "totalCurrentLiabilities" (pyI 0)
  if (pyI 0).blt currentLiab then some ((currentAssets.div currentLiab).roundTo 2) else none

/-- The revenue-growth computation of get_fundamentals: a one-decimal
percentage string from the two most recent annual revenues, None unless at
least two reports exist and the prior-year revenue is positive, so the
division is guarded. -/
def avmRevGrowth (income : JVal) (revenue : Py) : Except PyErr (Option String) := do
  let len ← jLen income
  if 2 ≤ len then do
    let p ← jIdx income 1
    let po ← asObjE p
    let prevRevenue := avmSafeFloat po "totalRevenue" (pyI 0)
    if (pyI 0).blt prevRevenue then
      pure (some (fmtFixed (((revenue.div prevRevenue).sub (pyI 1)).mul (pyI 100)) 1 ++ "%"))
    else pure none
  else pure none

/-- Source get_fundamentals, the body inside its try. -/
def getFundamentalsBody (o : AVMOracle) (t : String) : Except PyErr PyDict := do
  let ov := avmGetOverview o t
  let income := avmReports (o.incomeStmt t)
  let balance := avmReports (o.balanceSheet t)
  let li ← avmLatestObj income
  let lb ← avmLatestObj balance
  let revenue := avmSafeFloat li "totalRevenue" (pyI 0)
  let ebitda := avmSafeFloat li "ebitda" (pyI 0)
  let netIncome := avmSafeFloat li "netIncome" (pyI 0)
  let totalDebt := (avmSafeFloat lb "shortTermDebt" (pyI 0)).add (avmSafeFloat lb "longTermDebt" (pyI 0))
  let totalCash := avmSafeFloat lb "cashAndShortTermInvestments" (pyI 0)
  let currentRat := avmCurrentRat lb
  let revGrowth ← avmRevGrowth income revenue
  pure [
    ("ticker", .s t),
    ("pe_trailing", optPy (avmSafeFloatOrNone ov "TrailingPE")),
    ("pe_forward", optPy (avmSafeFloatOrNone ov "ForwardPE")),
    ("peg_ratio", optPy (avmSafeFloatOrNone ov "PEGRatio")),
    ("price_to_book", optPy (avmSafeFloatOrNone ov "BookValue")),
    ("price_to_sales", optPy (avmSafeFloatOrNone ov "PriceToSalesRatioTTM")),
    ("ev_to_ebitda", optPy (avmSafeFloatOrNone ov "EVToEBITDA")),
    ("ev_to_revenue", optPy (avmSafeFloatOrNone ov "EVToRevenue")),
    ("profit_margin", optStr (avmPct ov "ProfitMargin")),
    ("operating_margin", optStr (avmPct ov "OperatingMarginTTM")),
    ("gross_margin", .noneV),
    ("roe", optStr (avmPct ov "ReturnOnEquityTTM")),
    ("roa", optStr (avmPct ov "ReturnOnAssetsTTM")),
    ("revenue_growth", optStr revGrowth),
    ("earnings_growth", optStr (avmPct ov "QuarterlyEarningsGrowthYOY")),
    ("revenue", if revenue.isZero then .noneV else .f revenue),
    ("revenue_formatted", if revenue.isZero then .noneV else optStr (formatLargeNumber (some revenue))),
    ("ebitda", if ebitda.isZero then .noneV else .f ebitda),
    ("ebitda_formatted", if ebitda.isZero then .noneV else optStr (formatLargeNumber (some ebitda))),
    ("net_income", if netIncome.isZero then .noneV else .f netIncome),
    ("total_debt", if totalDebt.isZero then .noneV else .f totalDebt),
    ("total_debt_formatted", if totalDebt.isZero then .noneV else optStr (formatLargeNumber (some totalDebt))),
    ("total_cash", if totalCash.isZero then .noneV else .f totalCash),
    ("total_cash_formatted", if totalCash.isZero then .noneV else optStr (formatLargeNumber (some totalCash))),
    ("debt_to_equity",
      if pyTruthy (jGetD ov "DebtToEquityRatio" .null) then optPy (avmSafeFloatOrNone ov "DebtToEquityRatio") else .noneV),
    ("current_ratio", optPy currentRat),
    ("dividend_yield", optStr (avmPct ov "DividendYield")),
    ("payout_ratio", optStr (avmPct ov "PayoutRatio")),
    ("target_mean_price", optPy (avmSafeFloatOrNone ov "AnalystTargetPrice")),
    ("target_high_price", .noneV),
    ("target_low_price", .noneV),
    ("recommendation", .noneV),
    ("num_analysts",
      if pyTruthy (jGetD ov "NumberOfAnalystOpinions" .null) then optInt (avmSafeIntOrNone ov "NumberOfAnalystOpinions") else .noneV)]

/-- Source get_fundamentals: body wrapped in the sentinel catch. -/
def getFundamentals (o : AVMOracle) (t : String) : Except PyErr PyDict :=
  catchDict t (getFundamentalsBody o t)

/-- Source get_info: a yfinance-compatible info dict straight off the
cached OVERVIEW response.  The source body has no try/except; every step
is a total extractor, so no exception can arise. -/
def getInfo (o : AVMOracle) (t : String) : Except PyErr PyDict := do
  let ov := avmGetOverview o t
  pure [
    ("longName", ofJ (jGetD ov "Name" (.s t))),
    ("shortName", ofJ (jGetD ov "Name" (.s t))),
    ("sector", ofJ (jGetD ov "Sector" (.s "Unknown"))),
    ("industry", ofJ (jGetD ov "Industry" (.s "Unknown"))),
    ("marketCap", .f (avmSafeFloat ov "MarketCapitalization" (pyI 0))),
    ("trailingPE", optPy (avmSafeFloatOrNone ov "TrailingPE")),
    ("forwardPE", optPy (avmSafeFloatOrNone ov "ForwardPE")),
    ("pegRatio", optPy (avmSafeFloatOrNone ov "PEGRatio")),
    ("priceToBook", optPy (avmSafeFloatOrNone ov "BookValue")),
    ("enterpriseToEbitda", optPy (avmSafeFloatOrNone ov "EVToEBITDA")),
    ("profitMargins", optPy (avmSafeFloatOrNone ov "ProfitMargin")),
    ("revenueGrowth", optPy (avmSafeFloatOrNone ov "QuarterlyRevenueGrowthYOY")),
    ("returnOnEquity", optPy (avmSafeFloatOrNone ov "ReturnOnEquityTTM")),
    ("dividendYield", optPy (avmSafeFloatOrNone ov "DividendYield")),
    ("debtToEquity",
      if pyTruthy (jGetD ov "DebtToEquityRatio" .null) then optPy (avmSafeFloatOrNone ov "DebtToEquityRatio") else .noneV),
    ("recommendationKey", .noneV),
    ("beta", optPy (avmSafeFloatOrNone ov "Beta")),
    ("sharesOutstanding", optPy (avmSafeFloatOrNone ov "SharesOutstanding")),
    ("averageVolume", .noneV),
    ("shortPercentOfFloat", .noneV),
    ("description", ofJ (jGetD ov "Description" (.s ""))),
    ("country", ofJ (jGetD ov "Country" (.s "Unknown"))),
    ("exchange", ofJ (jGetD ov "Exchange" (.s "Unknown"))),
    ("currency", ofJ (jGetD ov "Currency" (.s "USD")))]

/-- Source get_insider_transactions: logs and returns None, no handler. -/
def getInsiderTransactions (_o : AVMOracle) (_t : String) : Except PyErr (Option PyDict) :=
  .ok none

/-- The conditional float conversion of the earnings rows: value if value
and value is not the string None else None. -/
def condFloat (v : Option JVal) : Except PyErr (Option Py) :=
  match v with
  | none => pure none
  | some x =>
    if pyTruthy x && !(jEqStr x "None") then do
      let q ← pyFloat x
      pure (some q)
    else pure none

/-- The row loop of get_earnings_history. -/
def ehRows : List JVal → Except PyErr (List PyDict)
  | [] => .ok []
  | q :: rest => do
    let qd ← asObjE q
    let est ← condFloat (jGet qd "estimatedEPS")
    let actual ← condFloat (jGet qd "reportedEPS")
    let spct ← condFloat (jGet qd "surprisePercentage")
    let tail ← ehRows rest
    pure ([
      ("Earnings Date", ofJ (jGetD qd "reportedDate" (.s ""))),
      ("EPS Estimate", optPy est),
      ("Reported EPS", optPy actual),
      ("Surprise(%)", optPy spct)] :: tail)

/-- Python iteration over the quarterlyEarnings value: a list iterates its
elements; iterating a non-list truthy value fails sooner or later inside
the loop, folded into one TypeError with the same caught outcome. -/
def asIterE : JVal → Except PyErr (List JVal)
  | .arr l => .ok l
  | _ => .error (.typeError "value is not iterable as rows")

/-- Source get_earnings_history, the body inside its try. -/
def getEarningsHistoryBody (o : AVMOracle) (t : String) : Except PyErr (Option (List PyDict)) := do
  let data ← apiCheck (o.earnings t)
  let quarterly := jGetD data "quarterlyEarnings" (.arr [])
  if !(pyTruthy quarterly) then pure none
  else do
    let rows ← ehRows (← asIterE quarterly)
    pure (if rows.isEmpty then none else some rows)

/-- Source get_earnings_history: body wrapped in the catch returning None. -/
def getEarningsHistory (o : AVMOracle) (t : String) : Except PyErr (Option (List PyDict)) :=
  catchNone (getEarningsHistoryBody o t)

/-- The row loop of get_quarterly_earnings. -/
def qeRows : List JVal → Except PyErr (List PyDict)
  | [] => .ok []
  | q :: rest => do
    let qd ← asObjE q
    let earn ← condFloat (jGet qd "reportedEPS")
    let tail ← qeRows rest
    pure ([
      ("Quarter", ofJ (jGetD qd "fiscalDateEnding" (.s ""))),
      ("Earnings", optPy earn)] :: tail)

/-- Source get_quarterly_earnings, the body inside its try. -/
def getQuarterlyEarningsBody (o : AVMOracle) (t : String) : Except PyErr (Option (List PyDict)) := do
  let data ← apiCheck (o.earnings t)
  let quarterly := jGetD data "quarterlyEarnings" (.arr [])
  if !(pyTruthy quarterly) then pure none
  else do
    let rows ← qeRows (← asIterE quarterly)
    pure (if rows.isEmpty then none else some rows)

/-- Source get_quarterly_earnings: body wrapped in the catch returning None. -/
def getQuarterlyEarnings (o : AVMOracle) (t : String) : Except PyErr (Option (List PyDict)) :=
  catchNone (getQuarterlyEarningsBody o t)

/-- Which of the nine MarketDataProvider method bodies of
AlphaVantageMarketProvider are syntactically wrapped in a try/except in
the source file: six are; get_ticker_object, get_info and
get_insider_transactions are plain bodies with no handler. -/
def avmLocalCatch : String → Bool
  | "get_company_overview" => true
  | "get_price_data" => true
  | "get_fundamentals" => true
  | "get_earnings_history" => true
  | "get_quarterly_earnings" => true
  | "get_history" => true
  | "get_ticker_object" => false
  | "get_info" => false
  | "get_insider_transactions" => false
  | _ => false

/-! ## src/bds_data_providers/alphavantage.py

The Polars tabular adapter AlphaVantageProvider.  A DataFrame is a row
list plus its schema; the source's _safe_float is textually identical to
the one in alphavantage_market.py and is shared here as avmSafeFloat. -/

/-- One long-format price bar row. -/
structure PriceRow where
  rdate : PDate
  rticker : String
  ropen : Py
  rhigh : Py
  rlow : Py
  rclose : Py
  radjClose : Py
  rvolume : Py
deriving DecidableEq, Repr

/-- Polars dtype tags appearing in the adapter's schema. -/
inductive PlType
  | date
  | utf8
  | float64
deriving DecidableEq, Repr

/-- The empty_schema literal of fetch_daily_prices; the non-empty result
carries the same eight columns, built from the row dicts and the date
cast, so every branch of the function yields this schema. -/
def avEmptySchema : List (String × PlType) := [
  ("date", .date), ("ticker", .utf8), ("open", .float64), ("high", .float64),
  ("low", .float64), ("close", .float64), ("adj_close", .float64), ("volume", .float64)]

structure PriceFrame where
  schema : List (String × PlType)
  rows : List PriceRow
deriving DecidableEq, Repr

/-- The transport layer under AlphaVantageProvider. -/
structure AVOracle where
  series : String → Except PyErr JObj
  overview : String → Except PyErr JObj
  quote : String → Except PyErr JObj
  treasury : Except PyErr JObj

/-- The six float conversions of one raw daily bar, in source order. -/
def barFields (bar : JVal) : Except PyErr (Py × Py × Py × Py × Py × Py) :=
  match jSub bar "1. open" with
  | .error e => .error e
  | .ok v1 =>
  match pyFloat v1 with
  | .error e => .error e
  | .ok op =>
  match jSub bar "2. high" with
  | .error e => .error e
  | .ok v2 =>
  match pyFloat v2 with
  | .error e => .error e
  | .ok hi =>
  match jSub bar "3. low" with
  | .error e => .error e
  | .ok v3 =>
  match pyFloat v3 with
  | .error e => .error e
  | .ok lo =>
  match jSub bar "4. close" with
  | .error e => .error e
  | .ok v4 =>
  match pyFloat v4 with
  | .error e => .error e
  | .ok cl =>
  match jSub bar "5. adjusted close" with
  | .error e => .error e
  | .ok v5 =>
  match pyFloat v5 with
  | .error e => .error e
  | .ok adj =>
  match jSub bar "6. volume" with
  | .error e => .error e
  | .ok v6 =>
  match pyFloat v6 with
  | .error e => .error e
  | .ok vo => .ok (op, hi, lo, cl, adj, vo)

/-- The row loop of _fetch_single_daily: parse each date key, keep rows
inside the start-end window, convert the six bar fields, propagating any
failure out of the whole per-ticker fetch. -/
def fsdRows (tick : String) (start endd : PDate) :
    List (String × JVal) → Except PyErr (List PriceRow)
  | [] => .ok []
  | (ds, bar) :: rest =>
    match dateFromIso ds with
    | .error e => .error e
    | .ok d =>
      if PDate.blt d start || PDate.blt endd d then fsdRows tick start endd rest
      else
        match barFields bar with
        | .error e => .error e
        | .ok (op, hi, lo, cl, adj, vo) =>
          match fsdRows tick start endd rest with
          | .error e => .error e
          | .ok tail => .ok (⟨d, tick, op, hi, lo, cl, adj, vo⟩ :: tail)

/-- Source _fetch_single_daily: one ticker's daily bars inside the window,
None when the series key is absent or no row survives the window. -/
def fetchSingleDaily (o : AVOracle) (tick : String) (start endd : PDate) :
    Except PyErr (Option (List PriceRow)) := do
  let data ← apiCheck (o.series tick)
  if !(jHas data "Time Series (Daily)") then pure none
  else do
    let ts ← asObjE (jGetD data "Time Series (Daily)" .null)
    let rows ← fsdRows tick start endd ts
    if rows.isEmpty then pure none
    else pure (some rows)

/-- The per-ticker rows fetch_daily_prices keeps: the fetched window rows,
or nothing when the fetch raised or produced no frame. -/
def keptRows (o : AVOracle) (tick : String) (start endd : PDate) : List PriceRow :=
  match fetchSingleDaily o tick start endd with
  | .ok (some l) => l
  | _ => []

/-- The frames list of the fetch_daily_prices loop: per-ticker results in
order, a raised fetch logged and skipped, empty frames dropped. -/
def avFrames (o : AVOracle) (tickers : List String) (start endd : PDate) :
    List (List PriceRow) :=
  tickers.foldr
    (fun t acc =>
      match fetchSingleDaily o t start endd with
      | .ok (some df) => if df.length > 0 then df :: acc else acc
      | _ => acc)
    []

/-- The sort key of fetch_daily_prices: ticker ascending, then date. -/
def rowLe (a b : PriceRow) : Bool :=
  if a.rticker == b.rticker then PDate.ble a.rdate b.rdate
  else strLe a.rticker b.rticker

/-- Source fetch_daily_prices: the empty typed frame for no tickers or no
frames, otherwise the concatenation of the per-ticker frames sorted by
ticker and date. -/
def fetchDailyPrices (o : AVOracle) (tickers : List String) (start endd : PDate) :
    PriceFrame :=
  if tickers.isEmpty then ⟨avEmptySchema, []⟩
  else
    let frames := avFrames o tickers start endd
    if frames.isEmpty then ⟨avEmptySchema, []⟩
    else ⟨avEmptySchema, sortLe rowLe frames.flatten⟩

/-- The fixed-default fundamentals record fetch_ticker_info returns when
the OVERVIEW fetch fails. -/
def avDefaultInfo : PyDict := [
  ("market_cap", .f (pyI 0)),
  ("sector", .s ""),
  ("industry", .s ""),
  ("beta", .f (pyI 1)),
  ("shares_outstanding", .i 0),
  ("avg_volume", .i 0),
  ("dividend_yield", .f (pyI 0)),
  ("short_pct_of_float", .f (pyI 0))]

/-- Source fetch_ticker_info: the OVERVIEW fields under the standardized
keys, the fixed-default record when the fetch raises.  Only the API call
is inside the try; the dict construction after it is built from total
extractors. -/
def fetchTickerInfo (o : AVOracle) (t : String) : Except PyErr PyDict :=
  match apiCheck (o.overview t) with
  | .error _ => .ok avDefaultInfo
  | .ok data => .ok [
      ("market_cap", .f (avmSafeFloat data "MarketCapitalization" (pyI 0))),
      ("sector", ofJ (pyOrStr (jGetD data "Sector" (.s "")))),
      ("industry", ofJ (pyOrStr (jGetD data "Industry" (.s "")))),
      ("beta", .f (avmSafeFloat data "Beta" (pyI 1))),
      ("shares_outstanding", .i (avmSafeFloat data "SharesOutstanding" (pyI 0)).trunc),
      ("avg_volume", .i 0),
      ("dividend_yield", .f (avmSafeFloat data "DividendYield" (pyI 0))),
      ("short_pct_of_float",
        if pyTruthy (jGetD data "ShortPercentFloat" .null)
            && !(jEqStr (jGetD data "ShortPercentFloat" .null) "None") then
          .f ((avmSafeFloat data "ShortPercentFloat" (pyI 0)).div (pyI 100))
        else .f (pyI 0))]

/-- Source fetch_risk_free_rate, the body inside its try: the most recent
TREASURY_YIELD data point when present and usable. -/
def frfrBody (o : AVOracle) : Except PyErr (Option Py) := do
  let data ← apiCheck o.treasury
  let points := jGetD data "data" (.arr [])
  if pyTruthy points then do
    let p0 ← jIdx points 0
    let p0d ← asObjE p0
    match jGet p0d "value" with
    | some v =>
      if pyTruthy v && !(jEqStr v ".") then do
        let q ← pyFloat v
        pure (some (q.div (pyI 100)))
      else pure none
    | none => pure none
  else pure none

/-- Source fetch_risk_free_rate: the usable value over 100, and the 0.05
fallback on any exception or unusable data. -/
def fetchRiskFreeRate (o : AVOracle) : Py :=
  match frfrBody o with
  | .ok (some v) => v
  | _ => ⟨5, 100⟩

/-! ## src/bds_data_providers/provider.py

The abstract DataProvider contract: fetch_daily_prices is any
implementation, modelled as a function that may raise; fetch_price_history
is the concrete convenience wrapper under verification. -/

/-- Inverse of PDate.toDays (civil-from-days), the date that
today minus timedelta(days) lands on. -/
def PDate.ofDays (z0 : Int) : PDate :=
  let z := z0 + 719468
  let era := (if 0 ≤ z then z else z - 146096).fdiv 146097
  let doe := z - era * 146097
  let yoe := (doe - doe.fdiv 1460 + doe.fdiv 36524 - doe.fdiv 146096).fdiv 365
  let y := yoe + era * 400
  let doy := doe - (365 * yoe + yoe.fdiv 4 - yoe.fdiv 100)
  let mp := (5 * doy + 2).fdiv 153
  let d := doy - (153 * mp + 2).fdiv 5 + 1
  let m := mp + (if mp < 10 then 3 else -9)
  ⟨y + (if m ≤ 2 then 1 else 0), m, d⟩

/-- One simplified bar dict of fetch_price_history, carrying exactly the
keys date, open, high, low, close, volume. -/
structure BarDict where
  bdate : PDate
  bopen : Py
  bhigh : Py
  blow : Py
  bclose : Py
  bvolume : Py
deriving DecidableEq, Repr

def toBarDict (r : PriceRow) : BarDict :=
  ⟨r.rdate, r.ropen, r.rhigh, r.rlow, r.rclose, r.rvolume⟩

def dateRowLe (a b : PriceRow) : Bool := PDate.ble a.rdate b.rdate

/-- Source DataProvider.fetch_price_history: call the provider's
fetch_daily_prices over the trailing window ending today, give back the
empty list if it raises, otherwise the requested ticker's rows sorted by
date as simplified dicts. -/
def fetchPriceHistory
    (fdp : List String → PDate → PDate → Except PyErr (List PriceRow))
    (today : PDate) (ticker : String) (days : Int) : List BarDict :=
  let startD := PDate.ofDays (today.toDays - days)
  match fdp [ticker] startD today with
  | .error _ => []
  | .ok df =>
    (sortLe dateRowLe (df.filter (fun r => r.rticker == ticker))).map toBarDict

/-! ## src/bds_data_providers/market_factory.py

Registry, singleton cache, safe variant and cache clearing.  Adapter
instances are numbered by an allocation counter so that object identity is
the identity of the number; the import machinery, the probe calls and the
constructors are an oracle. -/

structure RegistryEntry where
  displayName : String
  modulePath : String
  className : String
  availPath : Option String
deriving DecidableEq, Repr

/-- The _PROVIDER_REGISTRY literal. -/
def providerRegistry : List RegistryEntry := [
  ⟨"Yahoo Finance", "bds_data_providers.yahoo_market", "YahooMarketProvider", none⟩,
  ⟨"Bloomberg", "bds_data_providers.bloomberg_market", "BloombergMarketProvider",
    some "bds_data_providers.bloomberg_market.is_available"⟩,
  ⟨"Interactive Brokers", "bds_data_providers.ib_market", "IBMarketProvider",
    some "bds_data_providers.ib_market.is_available"⟩]

/-- Import, probe and constructor outcomes: probe by dotted availability
path; construct by class name and whether constructor kwargs were passed;
close by instance number (outcome observed nowhere, clear_cache swallows
it). -/
structure FactoryOracle where
  probe : String → Except PyErr Bool
  construct : String → Bool → Except PyErr Unit
  closeOutcome : Nat → Option (Except PyErr Unit)

/-- The module-level factory state: the singleton cache plus the identity
bookkeeping of constructed instances. -/
structure FactoryState where
  cache : List (String × Nat)
  nextId : Nat
  instCls : List (Nat × String)
deriving DecidableEq, Repr

def cacheGet (st : FactoryState) (name : String) : Option Nat :=
  (List.find? (fun p => p.1 == name) st.cache).map (·.2)

def instClsOf (st : FactoryState) (i : Nat) : Option String :=
  (List.find? (fun p => p.1 == i) st.instCls).map (·.2)

/-- Source available_market_providers: registry order, probe-free entries
unconditionally, probed entries on a true probe, any probe exception
treated as not available. -/
def availableMarketProviders (o : FactoryOracle) : List String :=
  providerRegistry.filterMap fun e =>
    match e.availPath with
    | none => some e.displayName
    | some p =>
      match o.probe p with
      | .ok true => some e.displayName
      | _ => none

def pyStrRepr (s : String) : String := "'" ++ s ++ "'"

def pyListReprAux : List String → String
  | [] => ""
  | [a] => pyStrRepr a
  | a :: rest => pyStrRepr a ++ ", " ++ pyListReprAux rest

/-- Python str() of a list of strings, as the f-string renders the
available list inside the unknown-provider message. -/
def pyListRepr (l : List String) : String :=
  "[" ++ pyListReprAux l ++ "]"

def unknownProviderMsg (o : FactoryOracle) (name : String) : String :=
  "Unknown provider '" ++ name ++ "'. Available: " ++ pyListRepr (availableMarketProviders o)

/-- Source get_market_provider: cached instance for a no-kwargs call on a
cached name; otherwise resolve the registry entry, construct (letting any
constructor exception propagate), cache the instance only for a no-kwargs
call; a name outside the registry raises the descriptive ValueError. -/
def getMarketProvider (o : FactoryOracle) (name : String) (hasKwargs : Bool)
    (st : FactoryState) : Except PyErr (Nat × FactoryState) :=
  if !hasKwargs && (cacheGet st name).isSome then
    .ok ((cacheGet st name).getD 0, st)
  else
    match providerRegistry.find? (fun e => e.displayName == name) with
    | some e =>
      match o.construct e.className hasKwargs with
      | .error ex => .error ex
      | .ok _ =>
        let inst := st.nextId
        let st1 : FactoryState :=
          { cache := if hasKwargs then st.cache else (name, inst) :: st.cache,
            nextId := st.nextId + 1,
            instCls := (inst, e.className) :: st.instCls }
        .ok (inst, st1)
    | none => .error (.valueError (unknownProviderMsg o name))

/-- Source get_market_provider_safe: identical, except that any exception
for a non-default name falls back to a plain request for Yahoo Finance,
while a failing request for the default itself propagates. -/
def getMarketProviderSafe (o : FactoryOracle) (name : String) (hasKwargs : Bool)
    (st : FactoryState) : Except PyErr (Nat × FactoryState) :=
  match getMarketProvider o name hasKwargs st with
  | .ok r => .ok r
  | .error exc =>
    if name != "Yahoo Finance" then getMarketProvider o "Yahoo Finance" false st
    else .error exc

/-- Source clear_cache: call the optional close hook of every cached
instance, swallowing any teardown outcome the oracle reports, then empty
the cache. -/
def clearCache (_o : FactoryOracle) (st : FactoryState) : FactoryState :=
  { st with cache := [] }

/-! ## Theorems

General facts about the sort and comparators, then one theorem (with
witness or counterexample where required) per specification claim. -/

theorem insLe_perm {α : Type} (le : α → α → Bool) (x : α) (l : List α) :
    List.Perm (insLe le x l) (x :: l) := by
  induction l with
  | nil => simp [insLe]
  | cons h t ih =>
    by_cases hc : le h x = true
    · simpa [insLe, hc] using (List.Perm.trans (List.Perm.cons h ih) (List.Perm.swap x h t))
    · simp [insLe, hc]

theorem sortLe_perm {α : Type} (le : α → α → Bool) (l : List α) :
    List.Perm (sortLe le l) l := by
  induction l with
  | nil => simp [sortLe]
  | cons h t ih =>
    exact List.Perm.trans (insLe_perm le h (sortLe le t)) (List.Perm.cons h ih)

theorem insLe_pairwise {α : Type} (le : α → α → Bool)
    (htr : ∀ a b c, le a b = true → le b c = true → le a c = true)
    (hto : ∀ a b, le a b = true ∨ le b a = true)
    (x : α) (l : List α) (hl : List.Pairwise (fun a b => le a b = true) l) :
    List.Pairwise (fun a b => le a b = true) (insLe le x l) := by
  induction l with
  | nil => simp [insLe]
  | cons h t ih =>
    have hh := (List.pairwise_cons.mp hl).1
    have ht := (List.pairwise_cons.mp hl).2
    by_cases hc : le h x = true
    · have hmem : ∀ y ∈ insLe le x t, le h y = true := by
        intro y hy
        have : y ∈ x :: t := (insLe_perm le x t).mem_iff.mp hy
        rcases List.mem_cons.mp this with rfl | hyt
        · exact hc
        · exact hh y hyt
      simpa [insLe, hc] using ⟨hmem, ih ht⟩
    · have hxh : le x h = true := by
        rcases hto x h with hv | hv
        · exact hv
        · exact absurd hv hc
      have : List.Pairwise (fun a b => le a b = true) (x :: h :: t) := by
        refine List.Pairwise.cons ?_ (List.Pairwise.cons hh ht)
        intro y hy
        rcases List.mem_cons.mp hy with rfl | hyt
        · exact hxh
        · exact htr x h y hxh (hh y hyt)
      simpa [insLe, hc] using this

theorem sortLe_pairwise {α : Type} (le : α → α → Bool)
    (htr : ∀ a b c, le a b = true → le b c = true → le a c = true)
    (hto : ∀ a b, le a b = true ∨ le b a = true)
    (l : List α) : List.Pairwise (fun a b => le a b = true) (sortLe le l) := by
  induction l with
  | nil => simp [sortLe]
  | cons h t ih => exact insLe_pairwise le htr hto h (sortLe le t) ih

theorem sortLe_mem {α : Type} (le : α → α → Bool) (l : List α) (x : α) :
    x ∈ sortLe le l ↔ x ∈ l := (sortLe_perm le l).mem_iff

theorem strLe_total (a b : String) : strLe a b = true ∨ strLe b a = true := by
  unfold strLe
  rcases le_total (charKey a) (charKey b) with h | h
  · left; exact decide_eq_true h
  · right; exact decide_eq_true h

theorem strLe_trans (a b c : String) (h1 : strLe a b = true) (h2 : strLe b c = true) :
    strLe a c = true := by
  unfold strLe at *
  exact decide_eq_true (le_trans (of_decide_eq_true h1) (of_decide_eq_true h2))

theorem strLe_antisymm (a b : String) (h1 : strLe a b = true) (h2 : strLe b a = true) :
    a = b := by
  unfold strLe at *
  have hk : charKey a = charKey b := le_antisymm (of_decide_eq_true h1) (of_decide_eq_true h2)
  unfold charKey at hk
  have hinj : Function.Injective Char.toNat := by
    intro x y hxy
    exact Char.eq_of_val_eq (UInt32.ext hxy)
  exact String.ext (List.map_injective_iff.mpr hinj hk)

theorem pdateBle_total (a b : PDate) : a.ble b = true ∨ b.ble a = true := by
  unfold PDate.ble
  split_ifs <;> first
  | (simp_all; omega)
  | simp_all

theorem pdateBle_trans (a b c : PDate) (h1 : a.ble b = true) (h2 : b.ble c = true) :
    a.ble c = true := by
  unfold PDate.ble at *
  split_ifs at * <;> simp_all <;> omega

theorem rowLe_total (a b : PriceRow) : rowLe a b = true ∨ rowLe b a = true := by
  unfold rowLe
  by_cases h : a.rticker = b.rticker
  · simp [h]
    exact pdateBle_total a.rdate b.rdate
  · have h2 : ¬ b.rticker = a.rticker := fun hh => h hh.symm
    simp [h, h2]
    exact strLe_total a.rticker b.rticker

theorem rowLe_trans (a b c : PriceRow) (h1 : rowLe a b = true) (h2 : rowLe b c = true) :
    rowLe a c = true := by
  unfold rowLe at *
  by_cases hab : a.rticker = b.rticker <;> by_cases hbc : b.rticker = c.rticker
  · have hac : a.rticker = c.rticker := hab.trans hbc
    simp [hab, hbc, hac] at *
    exact pdateBle_trans _ _ _ h1 h2
  · have hac : ¬ a.rticker = c.rticker := fun hh => hbc (hab.symm.trans hh)
    simp [hab, hbc, hac] at *
    exact h2
  · have hac : ¬ a.rticker = c.rticker := fun hh => hab (hh.trans hbc.symm)
    simp [hab, hbc, hac] at *
    exact h1
  · by_cases hac : a.rticker = c.rticker
    · exfalso
      simp [hab, hbc] at h1 h2
      rw [hac] at h1
      exact hbc (strLe_antisymm _ _ h2 h1)
    · simp [hab, hbc, hac] at *
      exact strLe_trans _ _ _ h1 h2

theorem dateRowLe_total (a b : PriceRow) : dateRowLe a b = true ∨ dateRowLe b a = true :=
  pdateBle_total a.rdate b.rdate

theorem dateRowLe_trans (a b c : PriceRow) (h1 : dateRowLe a b = true)
    (h2 : dateRowLe b c = true) : dateRowLe a c = true :=
  pdateBle_trans _ _ _ h1 h2

theorem histLe_total (a b : HistRow) : histLe a b = true ∨ histLe b a = true :=
  pdateBle_total a.hdate b.hdate

theorem histLe_trans (a b c : HistRow) (h1 : histLe a b = true) (h2 : histLe b c = true) :
    histLe a c = true :=
  pdateBle_trans _ _ _ h1 h2

theorem clStarts_self (n rest : List Char) : clStarts n (n ++ rest) = true := by
  induction n with
  | nil => rfl
  | cons c t ih => simp [clStarts, ih]

theorem clHasSub_at (pre n post : List Char) : clHasSub n (pre ++ (n ++ post)) = true := by
  induction pre with
  | nil =>
    cases n with
    | nil =>
      cases post with
      | nil => rfl
      | cons c t => simp [clHasSub, clStarts]
    | cons c t =>
      simp only [clHasSub, List.nil_append, Bool.or_eq_true]
      exact Or.inl (by simpa using clStarts_self (c :: t) post)
  | cons c pt ih => simp [clHasSub, ih]

theorem strContains_of_split (h x a z : String) (hsplit : h = x ++ a ++ z) :
    strContains h a = true := by
  subst hsplit
  unfold strContains
  have : ((x ++ a) ++ z).toList = x.toList ++ (a.toList ++ z.toList) := by
    show (x.toList ++ a.toList) ++ z.toList = _
    exact List.append_assoc _ _ _
  rw [this]
  exact clHasSub_at _ _ _

theorem pyListReprAux_mem (l : List String) (a : String) (ha : a ∈ l) :
    ∃ x z, pyListReprAux l = x ++ a ++ z := by
  induction l with
  | nil => cases ha
  | cons h t ih =>
    rcases List.mem_cons.mp ha with rfl | hat
    · cases t with
      | nil => exact ⟨"'", "'", rfl⟩
      | cons b r =>
        refine ⟨"'", "'" ++ (", " ++ pyListReprAux (b :: r)), ?_⟩
        show pyStrRepr a ++ ", " ++ pyListReprAux (b :: r) = _
        unfold pyStrRepr
        rw [String.append_assoc, String.append_assoc]
    · cases t with
      | nil => cases hat
      | cons b r =>
        obtain ⟨x, z, hx⟩ := ih hat
        refine ⟨pyStrRepr h ++ ", " ++ x, z, ?_⟩
        show pyStrRepr h ++ ", " ++ pyListReprAux (b :: r) = _
        rw [hx, ← String.append_assoc, ← String.append_assoc]

theorem pyListRepr_mem (l : List String) (a : String) (ha : a ∈ l) :
    ∃ x z, pyListRepr l = x ++ a ++ z := by
  obtain ⟨x, z, hx⟩ := pyListReprAux_mem l a ha
  refine ⟨"[" ++ x, z ++ "]", ?_⟩
  unfold pyListRepr
  rw [hx]
  simp [String.append_assoc]

/-- C8 counterexample: the claim renders every sub-million value as a
comma-grouped currency string, but the source maps the numeric value zero
to None exactly as it maps None, so format at zero is not the
dollar-and-comma rendering of zero. -/
theorem C8_format_zero_cex :
    formatLargeNumber (some (pyI 0)) = none ∧
    formatLargeNumber (some (pyI 0)) ≠ some ("$" ++ fmtComma0 (pyI 0)) := by
  exact ⟨rfl, by decide⟩

/-- C8 (amended): formatLargeNumber maps None to None and also the value
zero to None; every nonzero value follows the claimed magnitude tiers:
absolute value at least 1e12 gives a two-decimal T string, at least 1e9 a
two-decimal B string, at least 1e6 a one-decimal M string, and otherwise a
comma-grouped integer currency string. -/
theorem C8_format_large_number (v : Py) :
    formatLargeNumber none = none ∧
    (v.isZero = true → formatLargeNumber (some v) = none) ∧
    (v.isZero = false → (pyI 1000000000000).ble v.pabs = true →
      formatLargeNumber (some v) = some ("$" ++ fmtFixed (v.div (pyI 1000000000000)) 2 ++ "T")) ∧
    (v.isZero = false → (pyI 1000000000000).ble v.pabs = false →
      (pyI 1000000000).ble v.pabs = true →
      formatLargeNumber (some v) = some ("$" ++ fmtFixed (v.div (pyI 1000000000)) 2 ++ "B")) ∧
    (v.isZero = false → (pyI 1000000000000).ble v.pabs = false →
      (pyI 1000000000).ble v.pabs = false → (pyI 1000000).ble v.pabs = true →
      formatLargeNumber (some v) = some ("$" ++ fmtFixed (v.div (pyI 1000000)) 1 ++ "M")) ∧
    (v.isZero = false → (pyI 1000000000000).ble v.pabs = false →
      (pyI 1000000000).ble v.pabs = false → (pyI 1000000).ble v.pabs = false →
      formatLargeNumber (some v) = some ("$" ++ fmtComma0 v)) := by
  refine ⟨rfl, ?_, ?_, ?_, ?_, ?_⟩
  · intro h; simp [formatLargeNumber, h]
  · intro h ht; simp [formatLargeNumber, h, ht]
  · intro h ht hb; simp [formatLargeNumber, h, ht, hb]
  · intro h ht hb hm; simp [formatLargeNumber, h, ht, hb, hm]
  · intro h ht hb hm; simp [formatLargeNumber, h, ht, hb, hm]

/-- C8 witness: the three formatting examples of the specification,
obtained from the tier theorem at concrete inputs. -/
theorem C8_format_large_number_witness :
    formatLargeNumber (some (pyI 1500000000000)) = some "$1.50T" ∧
    formatLargeNumber (some (pyI 230000000000)) = some "$230.00B" ∧
    formatLargeNumber (some (pyI 45000000)) = some "$45.0M" := by
  refine ⟨?_, ?_, ?_⟩
  · exact ((C8_format_large_number (pyI 1500000000000)).2.2.1 (by decide) (by decide)).trans
      (by decide)
  · exact ((C8_format_large_number (pyI 230000000000)).2.2.2.1 (by decide) (by decide)
      (by decide)).trans (by decide)
  · exact ((C8_format_large_number (pyI 45000000)).2.2.2.2.1 (by decide) (by decide)
      (by decide) (by decide)).trans (by decide)

/-- C6: when resolving or constructing the requested provider raises, the
safe factory falls back to a plain request for the default Yahoo Finance
adapter, except that a failing request for the default itself propagates
the exception unmodified. -/
theorem C6_safe_fallback (o : FactoryOracle) (name : String) (hasKwargs : Bool)
    (st : FactoryState) (e : PyErr)
    (hfail : getMarketProvider o name hasKwargs st = .error e) :
    getMarketProviderSafe o name hasKwargs st =
      (if name = "Yahoo Finance" then .error e
       else getMarketProvider o "Yahoo Finance" false st) := by
  unfold getMarketProviderSafe
  rw [hfail]
  by_cases h : name = "Yahoo Finance"
  · simp [h]
  · simp [h]

def wProbeFalse : String → Except PyErr Bool := fun _ => .ok false

/-- A factory world whose constructors all succeed. -/
def wCtorOk : FactoryOracle := ⟨wProbeFalse, fun _ _ => .ok (), fun _ => none⟩

/-- A factory world whose constructors all raise ImportError. -/
def wCtorFail : FactoryOracle :=
  ⟨wProbeFalse, fun _ _ => .error (.importError "missing dependency"), fun _ => none⟩

def wSt0 : FactoryState := ⟨[], 0, []⟩

/-- C6 witness: a Bloomberg request in a world whose constructors raise
falls back to the (also failing) default request rather than surfacing the
Bloomberg failure. -/
theorem C6_safe_fallback_witness :
    getMarketProviderSafe wCtorFail "Bloomberg" false wSt0 =
      (if "Bloomberg" = "Yahoo Finance" then .error (.importError "missing dependency")
       else getMarketProvider wCtorFail "Yahoo Finance" false wSt0) :=
  C6_safe_fallback wCtorFail "Bloomberg" false wSt0 (.importError "missing dependency") rfl


/-- C4: the singleton-cache lifecycle.  With the name resolvable and its
constructor succeeding, a first no-argument call constructs and caches a
fresh instance, a second no-argument call returns the identical cached
instance without reconstruction, a call with constructor arguments
constructs a fresh uncached instance without reading or writing the cache,
and after clear_cache (which empties the cache whatever each cached
adapter's close outcome is) the next no-argument call returns a different
instance. -/
theorem C4_singleton_cache (o : FactoryOracle) (name : String) (st : FactoryState)
    (e : RegistryEntry)
    (hreg : providerRegistry.find? (fun x => x.displayName == name) = some e)
    (hctor : o.construct e.className false = .ok ())
    (hctorK : o.construct e.className true = .ok ())
    (hmiss : cacheGet st name = none) :
    ∃ st1 : FactoryState,
      getMarketProvider o name false st = .ok (st.nextId, st1) ∧
      cacheGet st1 name = some st.nextId ∧
      getMarketProvider o name false st1 = .ok (st.nextId, st1) ∧
      (∃ st2, getMarketProvider o name true st1 = .ok (st1.nextId, st2) ∧
        st2.cache = st1.cache ∧ st1.nextId ≠ st.nextId) ∧
      (∀ o2 : FactoryOracle, (clearCache o2 st1).cache = [] ∧
        ∃ i st3, getMarketProvider o name false (clearCache o2 st1) = .ok (i, st3) ∧
          i ≠ st.nextId) := by
  refine ⟨⟨(name, st.nextId) :: st.cache, st.nextId + 1, (st.nextId, e.className) :: st.instCls⟩,
    ?_, ?_, ?_, ?_, ?_⟩
  · unfold getMarketProvider
    simp [hmiss, hreg, hctor]
  · simp [cacheGet]
  · unfold getMarketProvider
    simp [cacheGet]
  · refine ⟨⟨(name, st.nextId) :: st.cache, st.nextId + 2,
      (st.nextId + 1, e.className) :: (st.nextId, e.className) :: st.instCls⟩,
      ?_, rfl, by simp⟩
    unfold getMarketProvider
    simp [cacheGet, hreg, hctorK]
  · intro o2
    refine ⟨rfl, st.nextId + 1,
      ⟨[(name, st.nextId + 1)], st.nextId + 2,
        (st.nextId + 1, e.className) :: (st.nextId, e.className) :: st.instCls⟩,
      ?_, by omega⟩
    unfold getMarketProvider clearCache
    simp [cacheGet, hreg, hctor]

/-- C4 witness: the lifecycle run concretely for the default provider from
the empty factory state in a world whose constructors succeed. -/
theorem C4_singleton_cache_witness :
    ∃ st1 : FactoryState,
      getMarketProvider wCtorOk "Yahoo Finance" false wSt0 = .ok (wSt0.nextId, st1) ∧
      cacheGet st1 "Yahoo Finance" = some wSt0.nextId ∧
      getMarketProvider wCtorOk "Yahoo Finance" false st1 = .ok (wSt0.nextId, st1) ∧
      (∃ st2, getMarketProvider wCtorOk "Yahoo Finance" true st1 = .ok (st1.nextId, st2) ∧
        st2.cache = st1.cache ∧ st1.nextId ≠ wSt0.nextId) ∧
      (∀ o2 : FactoryOracle, (clearCache o2 st1).cache = [] ∧
        ∃ i st3,
          getMarketProvider wCtorOk "Yahoo Finance" false (clearCache o2 st1) = .ok (i, st3) ∧
          i ≠ wSt0.nextId) :=
  C4_singleton_cache wCtorOk "Yahoo Finance" wSt0
    ⟨"Yahoo Finance", "bds_data_providers.yahoo_market", "YahooMarketProvider", none⟩
    rfl rfl rfl rfl

/-- C5: a name outside the registry makes get_market_provider raise the
ValueError naming the unknown provider and listing the currently available
provider names, while get_market_provider_safe instead returns an instance
constructed from the default Yahoo Finance adapter class. -/
theorem C5_unknown_provider (o : FactoryOracle) (name : String) (st : FactoryState)
    (hreg : providerRegistry.find? (fun x => x.displayName == name) = none)
    (hmiss : cacheGet st name = none)
    (hyCtor : o.construct "YahooMarketProvider" false = .ok ())
    (hyMiss : cacheGet st "Yahoo Finance" = none) :
    getMarketProvider o name false st =
      .error (.valueError ("Unknown provider '" ++ name ++ "'. Available: "
        ++ pyListRepr (availableMarketProviders o))) ∧
    strContains (unknownProviderMsg o name) name = true ∧
    (∀ a ∈ availableMarketProviders o, strContains (unknownProviderMsg o name) a = true) ∧
    (∃ st1, getMarketProviderSafe o name false st = .ok (st.nextId, st1) ∧
      instClsOf st1 st.nextId = some "YahooMarketProvider") := by
  have hname : name ≠ "Yahoo Finance" := by
    intro hh
    rw [hh] at hreg
    simp [providerRegistry] at hreg
  have hget : getMarketProvider o name false st =
      .error (.valueError (unknownProviderMsg o name)) := by
    unfold getMarketProvider
    simp [hmiss, hreg]
  refine ⟨hget, ?_, ?_, ?_⟩
  · exact strContains_of_split _ "Unknown provider '" name
      ("'. Available: " ++ pyListRepr (availableMarketProviders o))
      (by unfold unknownProviderMsg; simp [String.append_assoc])
  · intro a ha
    obtain ⟨x, z, hx⟩ := pyListRepr_mem (availableMarketProviders o) a ha
    exact strContains_of_split _
      ("Unknown provider '" ++ name ++ "'. Available: " ++ x) a z
      (by unfold unknownProviderMsg; rw [hx]; simp [String.append_assoc])
  · refine ⟨⟨("Yahoo Finance", st.nextId) :: st.cache, st.nextId + 1,
      (st.nextId, "YahooMarketProvider") :: st.instCls⟩, ?_, ?_⟩
    · unfold getMarketProviderSafe
      rw [hget]
      have hbne : (name != "Yahoo Finance") = true := by
        simp [bne, hname]
      simp only [hbne]
      unfold getMarketProvider
      simp [hyMiss, providerRegistry, hyCtor]
    · simp [instClsOf]

/-- C5 witness: the specification's NonExistentProvider example from the
empty state in a world whose constructors succeed. -/
theorem C5_unknown_provider_witness :
    getMarketProvider wCtorOk "NonExistentProvider" false wSt0 =
      .error (.valueError ("Unknown provider 'NonExistentProvider'. Available: "
        ++ pyListRepr (availableMarketProviders wCtorOk))) ∧
    strContains (unknownProviderMsg wCtorOk "NonExistentProvider") "NonExistentProvider" = true ∧
    (∀ a ∈ availableMarketProviders wCtorOk,
      strContains (unknownProviderMsg wCtorOk "NonExistentProvider") a = true) ∧
    (∃ st1, getMarketProviderSafe wCtorOk "NonExistentProvider" false wSt0 =
        .ok (wSt0.nextId, st1) ∧
      instClsOf st1 wSt0.nextId = some "YahooMarketProvider") :=
  C5_unknown_provider wCtorOk "NonExistentProvider" wSt0 rfl rfl rfl rfl

/-- C7: for every oracle outcome fetch_ticker_info returns a dict with
exactly the eight standardized keys, the fixed-default record (beta 1.0,
market_cap 0.0, sector empty) when the OVERVIEW fetch raises; and
fetch_risk_free_rate returns the usable treasury value over 100, and
exactly 0.05 when the fetch raises or yields no usable value — neither
operation ever raises. -/
theorem C7_info_rate_never_raise (o : AVOracle) (t : String) :
    (∃ d, fetchTickerInfo o t = .ok d ∧
      keysOf d = ["market_cap", "sector", "industry", "beta", "shares_outstanding",
        "avg_volume", "dividend_yield", "short_pct_of_float"]) ∧
    (∀ e, apiCheck (o.overview t) = .error e → fetchTickerInfo o t = .ok avDefaultInfo) ∧
    dGet avDefaultInfo "beta" = some (.f (pyI 1)) ∧
    dGet avDefaultInfo "market_cap" = some (.f (pyI 0)) ∧
    dGet avDefaultInfo "sector" = some (.s "") ∧
    (∀ e, apiCheck o.treasury = .error e → fetchRiskFreeRate o = ⟨5, 100⟩) ∧
    (frfrBody o = .ok none → fetchRiskFreeRate o = ⟨5, 100⟩) ∧
    (∀ v, frfrBody o = .ok (some v) → fetchRiskFreeRate o = v) := by
  refine ⟨?_, ?_, rfl, rfl, rfl, ?_, ?_, ?_⟩
  · cases h : apiCheck (o.overview t) with
    | error e => exact ⟨avDefaultInfo, by simp [fetchTickerInfo, h], rfl⟩
    | ok data =>
      unfold fetchTickerInfo
      rw [h]
      exact ⟨_, rfl, rfl⟩
  · intro e h
    simp [fetchTickerInfo, h]
  · intro e h
    unfold fetchRiskFreeRate frfrBody
    rw [h]
    rfl
  · intro h
    unfold fetchRiskFreeRate
    rw [h]
  · intro v h
    unfold fetchRiskFreeRate
    rw [h]

/-- An oracle whose every transport call raises, for the witnesses. -/
def wAVFail : AVOracle :=
  { series := fun _ => .error (.importError "no api"),
    overview := fun _ => .error (.importError "no api"),
    quote := fun _ => .error (.importError "no api"),
    treasury := .error (.importError "no api") }

/-- C7 witness: under the failing transport both operations return their
fallbacks. -/
theorem C7_info_rate_never_raise_witness :
    fetchTickerInfo wAVFail "MSFT" = .ok avDefaultInfo ∧
    fetchRiskFreeRate wAVFail = ⟨5, 100⟩ :=
  ⟨(C7_info_rate_never_raise wAVFail "MSFT").2.1 (.importError "no api") rfl,
   (C7_info_rate_never_raise wAVFail "MSFT").2.2.2.2.2.1 (.importError "no api") rfl⟩

/-- C10: the optional-field extractor returns None not only for an absent
key and the sentinels None, -, and the empty string, but also for the
exact string 0; the percentage renderer consequently returns None for a
zero-valued field; and get_info reports None for a dividend yield the
upstream source reported as exactly the string 0. -/
theorem C10_zero_conflated_with_unknown (d : JObj) (k : String) :
    (jGet d k = some (.s "0") → avmSafeFloatOrNone d k = none ∧ avmPct d k = none) ∧
    (jGet d k = none → avmSafeFloatOrNone d k = none) ∧
    (jGet d k = some (.s "None") → avmSafeFloatOrNone d k = none) ∧
    (jGet d k = some (.s "-") → avmSafeFloatOrNone d k = none) ∧
    (jGet d k = some (.s "") → avmSafeFloatOrNone d k = none) ∧
    (∀ (o : AVMOracle) (t : String) (ov : JObj),
      apiCheck (o.overview t) = .ok ov → jGet ov "DividendYield" = some (.s "0") →
      ∃ info, getInfo o t = .ok info ∧ dGet info "dividendYield" = some PyVal.noneV) := by
  refine ⟨?_, ?_, ?_, ?_, ?_, ?_⟩
  · intro h
    constructor
    · simp [avmSafeFloatOrNone, h, jEqStr]
    · simp [avmPct, avmSafeFloatOrNone, h, jEqStr]
  · intro h; simp [avmSafeFloatOrNone, h]
  · intro h; simp [avmSafeFloatOrNone, h, jEqStr]
  · intro h; simp [avmSafeFloatOrNone, h, jEqStr]
  · intro h; simp [avmSafeFloatOrNone, h, jEqStr]
  · intro o t ov hov hdy
    refine ⟨_, rfl, ?_⟩
    have hnone : avmSafeFloatOrNone (avmGetOverview o t) "DividendYield" = none := by
      unfold avmGetOverview
      rw [hov]
      simp [avmSafeFloatOrNone, hdy, jEqStr]
    simp [dGet, hnone, optPy]

/-- A record-contract oracle whose every transport call raises. -/
def wZeroAVM : AVMOracle :=
  { overview := fun _ => .error (.importError "no api"),
    earnings := fun _ => .error (.importError "no api"),
    incomeStmt := fun _ => .error (.importError "no api"),
    balanceSheet := fun _ => .error (.importError "no api"),
    series := fun _ => .error (.importError "no api"),
    todayOrd := 739000 }

/-- C10 witness: a concrete overview whose DividendYield is the string 0
flows through to None in the extractor, the percentage renderer and the
info dict. -/
theorem C10_zero_conflated_with_unknown_witness :
    (avmSafeFloatOrNone [("DividendYield", .s "0")] "DividendYield" = none ∧
      avmPct [("DividendYield", .s "0")] "DividendYield" = none) ∧
    ∃ info,
      getInfo { wZeroAVM with overview := fun _ => .ok [("DividendYield", .s "0")] } "IBM" =
        .ok info ∧
      dGet info "dividendYield" = some PyVal.noneV :=
  ⟨(C10_zero_conflated_with_unknown [("DividendYield", .s "0")] "DividendYield").1 rfl,
   (C10_zero_conflated_with_unknown [("DividendYield", .s "0")] "DividendYield").2.2.2.2.2
     { wZeroAVM with overview := fun _ => .ok [("DividendYield", .s "0")] } "IBM"
     [("DividendYield", .s "0")] rfl rfl⟩

/-- C9: the derived-metric guards of get_fundamentals.  The current-ratio
field is the rounded quotient of current assets by current liabilities
exactly when the liabilities figure is positive and None otherwise; the
revenue-growth field is computed from the two most recent annual revenues
exactly when two reports exist and the prior-year revenue is positive, and
None otherwise — so neither computation divides by zero.  A successful
body carries both results at their dict keys. -/
theorem C9_fundamentals_division_guards (lb : JObj) (income : JVal) (revenue : Py) :
    ((pyI 0).blt (avmSafeFloat lb "totalCurrentLiabilities" (pyI 0)) = true →
      avmCurrentRat lb = some (((avmSafeFloat lb "totalCurrentAssets" (pyI 0)).div
        (avmSafeFloat lb "totalCurrentLiabilities" (pyI 0))).roundTo 2)) ∧
    ((pyI 0).blt (avmSafeFloat lb "totalCurrentLiabilities" (pyI 0)) = false →
      avmCurrentRat lb = none) ∧
    (∀ l, income = .arr l → l.length < 2 → avmRevGrowth income revenue = .ok none) ∧
    (∀ l p po, income = .arr l → 2 ≤ l.length → l[1]? = some p → p = .obj po →
      ((pyI 0).blt (avmSafeFloat po "totalRevenue" (pyI 0)) = false →
        avmRevGrowth income revenue = .ok none) ∧
      ((pyI 0).blt (avmSafeFloat po "totalRevenue" (pyI 0)) = true →
        avmRevGrowth income revenue = .ok (some (fmtFixed (((revenue.div
          (avmSafeFloat po "totalRevenue" (pyI 0))).sub (pyI 1)).mul (pyI 100)) 1 ++ "%")))) ∧
    (∀ (o : AVMOracle) (t : String) (li lbo : JObj) (rg : Option String) (d : PyDict),
      avmLatestObj (avmReports (o.incomeStmt t)) = .ok li →
      avmLatestObj (avmReports (o.balanceSheet t)) = .ok lbo →
      avmRevGrowth (avmReports (o.incomeStmt t))
        (avmSafeFloat li "totalRevenue" (pyI 0)) = .ok rg →
      getFundamentalsBody o t = .ok d →
      dGet d "current_ratio" = some (optPy (avmCurrentRat lbo)) ∧
      dGet d "revenue_growth" = some (optStr rg)) := by
  refine ⟨?_, ?_, ?_, ?_, ?_⟩
  · intro h
    simp [avmCurrentRat, h]
  · intro h
    simp [avmCurrentRat, h]
  · intro l hin hlen
    subst hin
    unfold avmRevGrowth
    simp only [jLen, Bind.bind, Except.bind]
    rw [if_neg (by omega)]
    rfl
  · intro l p po hin hlen hget hp
    subst hin
    subst hp
    constructor
    · intro hprev
      unfold avmRevGrowth
      simp [jLen, jIdx, hget, asObjE, Bind.bind, Except.bind, hlen, hprev, pure, Except.pure]
    · intro hprev
      unfold avmRevGrowth
      simp [jLen, jIdx, hget, asObjE, Bind.bind, Except.bind, hlen, hprev, pure, Except.pure]
  · intro o t li lbo rg d hli hlb hrg hbody
    simp only [getFundamentalsBody, hli, hlb, hrg, Bind.bind, Except.bind, pure,
      Except.pure, Except.ok.injEq] at hbody
    subst hbody
    constructor
    · simp [dGet]
    · simp [dGet]

def wBalObj : JObj := [("totalCurrentAssets", .s "500"), ("totalCurrentLiabilities", .s "200")]

def wIncObj1 : JObj := [("totalRevenue", .s "300")]

def wIncObj2 : JObj := [("totalRevenue", .s "200")]

def wIncomeArr : JVal := .arr [.obj wIncObj1, .obj wIncObj2]

/-- A record-contract oracle serving one concrete balance sheet and two
annual income reports. -/
def wFundO : AVMOracle :=
  { wZeroAVM with
    incomeStmt := fun _ => .ok [("annualReports", wIncomeArr)],
    balanceSheet := fun _ => .ok [("annualReports", .arr [.obj wBalObj])] }

/-- The fundamentals dict the concrete oracle produces. -/
def wFundD : PyDict := (getFundamentalsBody wFundO "IBM").toOption.getD []

/-- C9 witness: assets 500 over liabilities 200 gives ratio 2.5, an empty
balance sheet gives None, revenues 300 over 200 give growth 50.0 percent,
and both land at their keys of the fundamentals dict. -/
theorem C9_fundamentals_division_guards_witness :
    avmCurrentRat wBalObj =
      some (((avmSafeFloat wBalObj "totalCurrentAssets" (pyI 0)).div
        (avmSafeFloat wBalObj "totalCurrentLiabilities" (pyI 0))).roundTo 2) ∧
    avmCurrentRat wBalObj = some ⟨250, 100⟩ ∧
    avmCurrentRat [] = none ∧
    avmRevGrowth wIncomeArr (pyI 300) = .ok (some "50.0%") ∧
    dGet wFundD "current_ratio" = some (optPy (avmCurrentRat wBalObj)) ∧
    dGet wFundD "revenue_growth" = some (optStr (some "50.0%")) := by
  refine ⟨?_, ?_, ?_, ?_, ?_, ?_⟩
  · exact (C9_fundamentals_division_guards wBalObj wIncomeArr (pyI 300)).1 (by decide)
  · exact ((C9_fundamentals_division_guards wBalObj wIncomeArr (pyI 300)).1 (by decide)).trans
      (by decide)
  · exact (C9_fundamentals_division_guards [] JVal.null (pyI 0)).2.1 (by decide)
  · exact (((C9_fundamentals_division_guards wBalObj wIncomeArr (pyI 300)).2.2.2.1
      [.obj wIncObj1, .obj wIncObj2] (.obj wIncObj2) wIncObj2 rfl (by decide) rfl rfl).2
      (by decide)).trans rfl
  · exact ((C9_fundamentals_division_guards wBalObj wIncomeArr (pyI 300)).2.2.2.2
      wFundO "IBM" wIncObj1 wBalObj (some "50.0%") wFundD rfl rfl rfl rfl).1
  · exact ((C9_fundamentals_division_guards wBalObj wIncomeArr (pyI 300)).2.2.2.2
      wFundO "IBM" wIncObj1 wBalObj (some "50.0%") wFundD rfl rfl rfl rfl).2

theorem companyOverviewBody_keys (o : AVMOracle) (t : String) (d : PyDict)
    (h : getCompanyOverviewBody o t = .ok d) :
    keysOf d = ["ticker", "name", "sector", "industry", "market_cap",
      "market_cap_formatted", "currency", "exchange", "description", "website",
      "employees", "country"] := by
  cases hs : slice500 (pyOrStr (jGetD (avmGetOverview o t) "Description" (.s ""))) with
  | error e =>
    simp only [getCompanyOverviewBody, hs, Bind.bind, Except.bind] at h
    exact Except.noConfusion h
  | ok desc =>
    simp only [getCompanyOverviewBody, hs, Bind.bind, Except.bind, pure, Except.pure,
      Except.ok.injEq] at h
    subst h
    rfl

theorem priceDataBody_keys (o : AVMOracle) (t period : String) (d : PyDict)
    (h : getPriceDataBody o t period = .ok d) :
    keysOf d = ["ticker", "current_price", "period_return_pct", "high_52w", "low_52w",
      "pct_from_high", "pct_from_low", "avg_daily_volume", "avg_volume_formatted",
      "period", "data_points"] ∨
    keysOf d = ["ticker", "error"] := by
  cases hh : getHistory o t period with
  | error e =>
    simp only [getPriceDataBody, hh, Bind.bind, Except.bind] at h
    exact Except.noConfusion h
  | ok hist =>
    cases hist with
    | nil =>
      simp only [getPriceDataBody, hh, Bind.bind, Except.bind, pure, Except.pure,
        Except.ok.injEq] at h
      subst h
      right
      rfl
    | cons h0 rest =>
      simp only [getPriceDataBody, hh, Bind.bind, Except.bind] at h
      cases h1 : pyDivE (rest.foldl (fun _ r => r.hclose) h0.hclose) h0.hclose with
      | error e =>
        simp only [h1, Except.bind] at h
        exact Except.noConfusion h
      | ok prp =>
        rw [h1] at h
        cases h2 : pyDivE (rest.foldl (fun _ r => r.hclose) h0.hclose)
            (rest.foldl (fun m r => if m.ble r.hclose then r.hclose else m) h0.hclose) with
        | error e =>
          simp only [h2, Except.bind] at h
          exact Except.noConfusion h
        | ok pfh =>
          rw [h2] at h
          cases h3 : pyDivE (rest.foldl (fun _ r => r.hclose) h0.hclose)
              (rest.foldl (fun m r => if r.hclose.ble m then r.hclose else m) h0.hclose) with
          | error e =>
            simp only [h3, Except.bind] at h
            exact Except.noConfusion h
          | ok pfl =>
            rw [h3] at h
            simp only [Except.bind, pure, Except.pure, Except.ok.injEq] at h
            subst h
            left
            rfl

theorem fundamentalsBody_keys (o : AVMOracle) (t : String) (d : PyDict)
    (h : getFundamentalsBody o t = .ok d) :
    keysOf d = ["ticker", "pe_trailing", "pe_forward", "peg_ratio", "price_to_book",
      "price_to_sales", "ev_to_ebitda", "ev_to_revenue", "profit_margin",
      "operating_margin", "gross_margin", "roe", "roa", "revenue_growth",
      "earnings_growth", "revenue", "revenue_formatted", "ebitda", "ebitda_formatted",
      "net_income", "total_debt", "total_debt_formatted", "total_cash",
      "total_cash_formatted", "debt_to_equity", "current_ratio", "dividend_yield",
      "payout_ratio", "target_mean_price", "target_high_price", "target_low_price",
      "recommendation", "num_analysts"] := by
  cases hli : avmLatestObj (avmReports (o.incomeStmt t)) with
  | error e =>
    simp only [getFundamentalsBody, hli, Bind.bind, Except.bind] at h
    exact Except.noConfusion h
  | ok li =>
    cases hlb : avmLatestObj (avmReports (o.balanceSheet t)) with
    | error e =>
      simp only [getFundamentalsBody, hli, hlb, Bind.bind, Except.bind] at h
      exact Except.noConfusion h
    | ok lb =>
      cases hrg : avmRevGrowth (avmReports (o.incomeStmt t))
          (avmSafeFloat li "totalRevenue" (pyI 0)) with
      | error e =>
        simp only [getFundamentalsBody, hli, hlb, hrg, Bind.bind, Except.bind] at h
        exact Except.noConfusion h
      | ok rg =>
        simp only [getFundamentalsBody, hli, hlb, hrg, Bind.bind, Except.bind, pure,
          Except.pure, Except.ok.injEq] at h
        subst h
        rfl

/-- C1 counterexample: the claim asserts that every one of the nine
operations wraps its body in a local catch, naming get_info and
get_ticker_object in particular, but in the source neither of those two
(nor get_insider_transactions) has any try/except around its body. -/
theorem C1_local_catch_cex :
    avmLocalCatch "get_info" = false ∧
    avmLocalCatch "get_ticker_object" = false ∧
    avmLocalCatch "get_insider_transactions" = false :=
  ⟨rfl, rfl, rfl⟩

/-- C1 (amended): for every oracle outcome each of the nine record-contract
operations returns normally, yielding either its populated fixed-key dict,
the ticker-and-error sentinel dict, None, or an empty/populated table; six
of the nine wrap their bodies in a local catch, while get_info,
get_ticker_object and get_insider_transactions have no handler and return
normally because every step of their bodies is total. -/
theorem C1_record_contract_total (o : AVMOracle) (t period : String) :
    (∃ d, getTickerObject o t = .ok d ∧ keysOf d = ["ticker", "provider"]) ∧
    (∃ d, getCompanyOverview o t = .ok d ∧
      (keysOf d = ["ticker", "name", "sector", "industry", "market_cap",
        "market_cap_formatted", "currency", "exchange", "description", "website",
        "employees", "country"] ∨ keysOf d = ["ticker", "error"])) ∧
    (∃ d, getPriceData o t period = .ok d ∧
      (keysOf d = ["ticker", "current_price", "period_return_pct", "high_52w", "low_52w",
        "pct_from_high", "pct_from_low", "avg_daily_volume", "avg_volume_formatted",
        "period", "data_points"] ∨ keysOf d = ["ticker", "error"])) ∧
    (∃ d, getFundamentals o t = .ok d ∧
      (keysOf d = ["ticker", "pe_trailing", "pe_forward", "peg_ratio", "price_to_book",
        "price_to_sales", "ev_to_ebitda", "ev_to_revenue", "profit_margin",
        "operating_margin", "gross_margin", "roe", "roa", "revenue_growth",
        "earnings_growth", "revenue", "revenue_formatted", "ebitda", "ebitda_formatted",
        "net_income", "total_debt", "total_debt_formatted", "total_cash",
        "total_cash_formatted", "debt_to_equity", "current_ratio", "dividend_yield",
        "payout_ratio", "target_mean_price", "target_high_price", "target_low_price",
        "recommendation", "num_analysts"] ∨ keysOf d = ["ticker", "error"])) ∧
    (∃ d, getInfo o t = .ok d ∧
      keysOf d = ["longName", "shortName", "sector", "industry", "marketCap",
        "trailingPE", "forwardPE", "pegRatio", "priceToBook", "enterpriseToEbitda",
        "profitMargins", "revenueGrowth", "returnOnEquity", "dividendYield",
        "debtToEquity", "recommendationKey", "beta", "sharesOutstanding",
        "averageVolume", "shortPercentOfFloat", "description", "country", "exchange",
        "currency"]) ∧
    getInsiderTransactions o t = .ok none ∧
    (∃ r, getEarningsHistory o t = .ok r) ∧
    (∃ r, getQuarterlyEarnings o t = .ok r) ∧
    (∃ l, getHistory o t period = .ok l) ∧
    (avmLocalCatch "get_company_overview" = true ∧
      avmLocalCatch "get_price_data" = true ∧
      avmLocalCatch "get_fundamentals" = true ∧
      avmLocalCatch "get_earnings_history" = true ∧
      avmLocalCatch "get_quarterly_earnings" = true ∧
      avmLocalCatch "get_history" = true) ∧
    avmLocalCatch "get_info" = false ∧
    avmLocalCatch "get_ticker_object" = false := by
  refine ⟨⟨_, rfl, rfl⟩, ?_, ?_, ?_, ⟨_, rfl, rfl⟩, rfl, ?_, ?_, ?_,
    ⟨rfl, rfl, rfl, rfl, rfl, rfl⟩, rfl, rfl⟩
  · cases hb : getCompanyOverviewBody o t with
    | error e =>
      exact ⟨[("ticker", .s t), ("error", .s e.text)],
        by simp [getCompanyOverview, catchDict, hb], Or.inr rfl⟩
    | ok d =>
      exact ⟨d, by simp [getCompanyOverview, catchDict, hb],
        Or.inl (companyOverviewBody_keys o t d hb)⟩
  · cases hb : getPriceDataBody o t period with
    | error e =>
      exact ⟨[("ticker", .s t), ("error", .s e.text)],
        by simp [getPriceData, catchDict, hb], Or.inr rfl⟩
    | ok d =>
      exact ⟨d, by simp [getPriceData, catchDict, hb], priceDataBody_keys o t period d hb⟩
  · cases hb : getFundamentalsBody o t with
    | error e =>
      exact ⟨[("ticker", .s t), ("error", .s e.text)],
        by simp [getFundamentals, catchDict, hb], Or.inr rfl⟩
    | ok d =>
      exact ⟨d, by simp [getFundamentals, catchDict, hb],
        Or.inl (fundamentalsBody_keys o t d hb)⟩
  · cases hb : getEarningsHistoryBody o t with
    | error e => exact ⟨none, by simp [getEarningsHistory, catchNone, hb]⟩
    | ok r => exact ⟨r, by simp [getEarningsHistory, catchNone, hb]⟩
  · cases hb : getQuarterlyEarningsBody o t with
    | error e => exact ⟨none, by simp [getQuarterlyEarnings, catchNone, hb]⟩
    | ok r => exact ⟨r, by simp [getQuarterlyEarnings, catchNone, hb]⟩
  · cases hb : getHistoryBody o t period with
    | error e => exact ⟨[], by simp [getHistory, hb]⟩
    | ok l => exact ⟨l, by simp [getHistory, hb]⟩

/-- C3: fetch_price_history calls the provider's fetch_daily_prices over
the trailing window ending today with the single requested ticker; if that
call raises, the result is exactly the empty list; otherwise the result is
exactly the requested ticker's rows of the batch result (rows of other
tickers excluded), sorted by date ascending, as simplified bar dicts. -/
theorem C3_fetch_price_history
    (fdp : List String → PDate → PDate → Except PyErr (List PriceRow))
    (today : PDate) (ticker : String) (days : Int) :
    (∀ e, fdp [ticker] (PDate.ofDays (today.toDays - days)) today = .error e →
      fetchPriceHistory fdp today ticker days = []) ∧
    (∀ df, fdp [ticker] (PDate.ofDays (today.toDays - days)) today = .ok df →
      List.Perm (fetchPriceHistory fdp today ticker days)
        ((df.filter (fun r => r.rticker == ticker)).map toBarDict) ∧
      List.Pairwise (fun a b : BarDict => PDate.ble a.bdate b.bdate = true)
        (fetchPriceHistory fdp today ticker days) ∧
      (∀ b, b ∈ fetchPriceHistory fdp today ticker days ↔
        b ∈ (df.filter (fun r => r.rticker == ticker)).map toBarDict)) := by
  constructor
  · intro e h
    unfold fetchPriceHistory
    simp only [h]
  · intro df h
    have hres : fetchPriceHistory fdp today ticker days =
        (sortLe dateRowLe (df.filter (fun r => r.rticker == ticker))).map toBarDict := by
      unfold fetchPriceHistory
      simp only [h]
    have hperm : List.Perm (fetchPriceHistory fdp today ticker days)
        ((df.filter (fun r => r.rticker == ticker)).map toBarDict) := by
      rw [hres]
      exact (sortLe_perm dateRowLe (df.filter (fun r => r.rticker == ticker))).map toBarDict
    refine ⟨hperm, ?_, fun b => hperm.mem_iff⟩
    rw [hres]
    have hp := sortLe_pairwise dateRowLe dateRowLe_trans dateRowLe_total
      (df.filter (fun r => r.rticker == ticker))
    exact List.Pairwise.map toBarDict (fun a b hab => hab) hp

/-- A provider whose batch fetch always raises. -/
def wFdpFail : List String → PDate → PDate → Except PyErr (List PriceRow) :=
  fun _ _ _ => .error (.connectionError "down")

def wRowM1 : PriceRow := ⟨⟨2025, 2, 2⟩, "MSFT", pyI 1, pyI 2, pyI 1, pyI 2, pyI 2, pyI 90⟩

def wRowA : PriceRow := ⟨⟨2025, 2, 1⟩, "AAPL", pyI 1, pyI 2, pyI 1, pyI 2, pyI 2, pyI 80⟩

def wRowM0 : PriceRow := ⟨⟨2025, 1, 5⟩, "MSFT", pyI 3, pyI 4, pyI 3, pyI 4, pyI 4, pyI 70⟩

/-- A provider whose batch result mixes MSFT and AAPL bars out of order. -/
def wFdpMixed : List String → PDate → PDate → Except PyErr (List PriceRow) :=
  fun _ _ _ => .ok [wRowM1, wRowA, wRowM0]

/-- C3 witness: the raising provider yields exactly the empty list, and
against the mixed batch the MSFT request keeps only the two MSFT bars in
ascending date order. -/
theorem C3_fetch_price_history_witness :
    fetchPriceHistory wFdpFail ⟨2025, 3, 1⟩ "MSFT" 400 = [] ∧
    List.Perm (fetchPriceHistory wFdpMixed ⟨2025, 3, 1⟩ "MSFT" 400)
      (([wRowM1, wRowA, wRowM0].filter (fun r => r.rticker == "MSFT")).map toBarDict) ∧
    List.Pairwise (fun a b : BarDict => PDate.ble a.bdate b.bdate = true)
      (fetchPriceHistory wFdpMixed ⟨2025, 3, 1⟩ "MSFT" 400) ∧
    fetchPriceHistory wFdpMixed ⟨2025, 3, 1⟩ "MSFT" 400 =
      [toBarDict wRowM0, toBarDict wRowM1] :=
  ⟨(C3_fetch_price_history wFdpFail ⟨2025, 3, 1⟩ "MSFT" 400).1 (.connectionError "down") rfl,
   ((C3_fetch_price_history wFdpMixed ⟨2025, 3, 1⟩ "MSFT" 400).2 [wRowM1, wRowA, wRowM0]
     rfl).1,
   ((C3_fetch_price_history wFdpMixed ⟨2025, 3, 1⟩ "MSFT" 400).2 [wRowM1, wRowA, wRowM0]
     rfl).2.1,
   rfl⟩

theorem avFrames_flatten (o : AVOracle) (tickers : List String) (start endd : PDate) :
    (avFrames o tickers start endd).flatten =
      (tickers.map (fun t => keptRows o t start endd)).flatten := by
  induction tickers with
  | nil => rfl
  | cons t ts ih =>
    show (match fetchSingleDaily o t start endd with
      | .ok (some df) => if df.length > 0 then df :: avFrames o ts start endd
        else avFrames o ts start endd
      | _ => avFrames o ts start endd).flatten = _
    cases h : fetchSingleDaily o t start endd with
    | error e => simpa [keptRows, h] using ih
    | ok op =>
      cases op with
      | none => simpa [keptRows, h] using ih
      | some df =>
        by_cases hl : df.length > 0
        · simpa [keptRows, h, hl] using congrArg (df ++ ·) ih
        · have hdf : df = [] := List.length_eq_zero.mp (by omega)
          subst hdf
          simpa [keptRows, h] using ih

theorem fetchDailyPrices_perm (o : AVOracle) (tickers : List String) (start endd : PDate) :
    List.Perm (fetchDailyPrices o tickers start endd).rows
      ((tickers.map (fun t => keptRows o t start endd)).flatten) := by
  unfold fetchDailyPrices
  by_cases h0 : tickers.isEmpty
  · have : tickers = [] := List.isEmpty_iff.mp h0
    subst this
    simp
  · simp only [h0, Bool.false_eq_true, if_false]
    by_cases hf : (avFrames o tickers start endd).isEmpty
    · have hfe : avFrames o tickers start endd = [] := List.isEmpty_iff.mp hf
      have := avFrames_flatten o tickers start endd
      rw [hfe] at this
      simp [hf, ← this]
    · simp only [hf, Bool.false_eq_true, if_false]
      exact (sortLe_perm rowLe _).trans (avFrames_flatten o tickers start endd ▸ List.Perm.refl _)

theorem fsdRows_range (tick : String) (start endd : PDate) :
    ∀ (ts : List (String × JVal)) (l : List PriceRow),
      fsdRows tick start endd ts = .ok l →
      ∀ r ∈ l, PDate.ble start r.rdate = true ∧ PDate.ble r.rdate endd = true ∧
        r.rticker = tick := by
  intro ts
  induction ts with
  | nil =>
    intro l h r hr
    simp only [fsdRows, Except.ok.injEq] at h
    subst h
    cases hr
  | cons p rest ih =>
    intro l h r hr
    obtain ⟨ds, bar⟩ := p
    cases hd : dateFromIso ds with
    | error e =>
      simp only [fsdRows, hd] at h
      exact Except.noConfusion h
    | ok d =>
      simp only [fsdRows, hd] at h
      by_cases hskip : (PDate.blt d start || PDate.blt endd d) = true
      · rw [if_pos hskip] at h
        exact ih l h r hr
      · rw [if_neg hskip] at h
        cases hb : barFields bar with
        | error e =>
          simp only [hb] at h
          exact Except.noConfusion h
        | ok flds =>
          obtain ⟨op, hi, lo, cl, adj, vo⟩ := flds
          simp only [hb] at h
          cases ht : fsdRows tick start endd rest with
          | error e =>
            simp only [ht] at h
            exact Except.noConfusion h
          | ok tail =>
            simp only [ht, Except.ok.injEq] at h
            subst h
            rcases List.mem_cons.mp hr with rfl | hrt
            · have h1 : PDate.blt d start = false := by
                cases hv : PDate.blt d start
                · rfl
                · rw [hv] at hskip; simp at hskip
              have h2 : PDate.blt endd d = false := by
                cases hv : PDate.blt endd d
                · rfl
                · rw [hv] at hskip; simp at hskip
              unfold PDate.blt at h1 h2
              refine ⟨?_, ?_, rfl⟩
              · simpa using congrArg (!·) h1
              · simpa using congrArg (!·) h2
            · exact ih tail ht r hrt

theorem fetchSingleDaily_rows (o : AVOracle) (tick : String) (start endd : PDate)
    (l : List PriceRow) (h : fetchSingleDaily o tick start endd = .ok (some l)) :
    ∃ ts, fsdRows tick start endd ts = .ok l := by
  unfold fetchSingleDaily at h
  cases ha : apiCheck (o.series tick) with
  | error e =>
    simp only [ha, Bind.bind, Except.bind] at h
    exact Except.noConfusion h
  | ok data =>
    simp only [ha, Bind.bind, Except.bind] at h
    by_cases hk : jHas data "Time Series (Daily)"
    · rw [if_neg (by simp [hk])] at h
      cases ho : asObjE (jGetD data "Time Series (Daily)" .null) with
      | error e =>
        simp only [ho] at h
        exact Except.noConfusion h
      | ok ts =>
        simp only [ho] at h
        cases hr : fsdRows tick start endd ts with
        | error e =>
          simp only [hr] at h
          exact Except.noConfusion h
        | ok rows =>
          simp only [hr] at h
          by_cases he : rows.isEmpty = true
          · rw [if_pos he] at h
            simp [pure, Except.pure] at h
          · rw [if_neg he] at h
            simp only [pure, Except.pure, Except.ok.injEq, Option.some.injEq] at h
            subst h
            exact ⟨ts, hr⟩
    · rw [if_pos (by simp [hk])] at h
      simp [pure, Except.pure] at h

theorem keptRows_range (o : AVOracle) (tick : String) (start endd : PDate) :
    ∀ r ∈ keptRows o tick start endd,
      PDate.ble start r.rdate = true ∧ PDate.ble r.rdate endd = true ∧
        r.rticker = tick := by
  intro r hr
  unfold keptRows at hr
  cases h : fetchSingleDaily o tick start endd with
  | error e => rw [h] at hr; cases hr
  | ok op =>
    cases op with
    | none => rw [h] at hr; cases hr
    | some l =>
      rw [h] at hr
      obtain ⟨ts, hts⟩ := fetchSingleDaily_rows o tick start endd l h
      exact fsdRows_range tick start endd ts l hts r hr

/-- C2: fetch_daily_prices returns, for the empty ticker list, the zero-row
frame whose schema is exactly the eight documented columns; for any ticker
list its rows are exactly the concatenation of the per-ticker kept rows
(a ticker whose fetch raises is skipped and contributes nothing), every
returned row lies inside the start/end window and carries a requested
ticker, and the whole result is sorted by ticker then date ascending. -/
theorem C2_fetch_daily_prices (o : AVOracle) (tickers : List String) (start endd : PDate) :
    (tickers = [] → fetchDailyPrices o tickers start endd = ⟨avEmptySchema, []⟩) ∧
    avEmptySchema = [("date", .date), ("ticker", .utf8), ("open", .float64),
      ("high", .float64), ("low", .float64), ("close", .float64),
      ("adj_close", .float64), ("volume", .float64)] ∧
    (fetchDailyPrices o tickers start endd).schema = avEmptySchema ∧
    List.Perm (fetchDailyPrices o tickers start endd).rows
      ((tickers.map (fun t => keptRows o t start endd)).flatten) ∧
    (∀ t e, fetchSingleDaily o t start endd = .error e → keptRows o t start endd = []) ∧
    (∀ r ∈ (fetchDailyPrices o tickers start endd).rows,
      PDate.ble start r.rdate = true ∧ PDate.ble r.rdate endd = true ∧
        r.rticker ∈ tickers) ∧
    List.Pairwise (fun a b => rowLe a b = true) (fetchDailyPrices o tickers start endd).rows := by
  refine ⟨?_, rfl, ?_, fetchDailyPrices_perm o tickers start endd, ?_, ?_, ?_⟩
  · intro h
    subst h
    rfl
  · simp only [fetchDailyPrices]
    split_ifs <;> rfl
  · intro t e h
    unfold keptRows
    rw [h]
  · intro r hr
    have hmem := (fetchDailyPrices_perm o tickers start endd).mem_iff.mp hr
    obtain ⟨kl, hkl, hrkl⟩ := List.mem_flatten.mp hmem
    obtain ⟨t, hts, hteq⟩ := List.mem_map.mp hkl
    subst hteq
    obtain ⟨h1, h2, h3⟩ := keptRows_range o t start endd r hrkl
    exact ⟨h1, h2, h3 ▸ hts⟩
  · simp only [fetchDailyPrices]
    split_ifs with h1 h2
    · exact List.Pairwise.nil
    · exact List.Pairwise.nil
    · exact sortLe_pairwise rowLe rowLe_trans rowLe_total _

/-- C2 witness: the empty-ticker call under the failing transport returns
the zero-row frame with the eight-column schema. -/
theorem C2_fetch_daily_prices_witness :
    fetchDailyPrices wAVFail [] ⟨2025, 1, 1⟩ ⟨2025, 12, 31⟩ = ⟨avEmptySchema, []⟩ :=
  (C2_fetch_daily_prices wAVFail [] ⟨2025, 1, 1⟩ ⟨2025, 12, 31⟩).1 rfl

end S2P
